import Mathlib

/-!
Verification of the imagingDB slicing/reassembly, splitter, validation and
storage logic, shallowly embedded from the Python sources.

Conventions used throughout:
* pandas dataframes of per-frame metadata become `List` of row structures;
* numpy arrays are modelled by their shape (`List Nat`) together with a
  total function from coordinates to pixel values;
* Python `assert`/exceptions become `Bool`/`Option`/`Except` results;
* `np.unique` (sorted distinct values of a column) is `npUnique`;
* strings that the code splits and indexes are modelled as `List Char`.
-/

/-- Sorted list of the distinct values of `l`: the model of `np.unique`
(numpy returns the distinct values of the column in increasing order). -/
def npUnique {α : Type} [LinearOrder α] [DecidableEq α] (l : List α) : List α :=
  l.toFinset.sort (· ≤ ·)

theorem npUnique_length {α : Type} [LinearOrder α] [DecidableEq α] (l : List α) :
    (npUnique l).length = l.toFinset.card :=
  Finset.length_sort _

theorem npUnique_sorted_lt {α : Type} [LinearOrder α] [DecidableEq α] (l : List α) :
    (npUnique l).Sorted (· < ·) :=
  Finset.sort_sorted_lt _

theorem mem_npUnique {α : Type} [LinearOrder α] [DecidableEq α] {l : List α} {v : α} :
    v ∈ npUnique l ↔ v ∈ l := by
  simp [npUnique, Finset.mem_sort, List.mem_toFinset]

/-- In a strictly sorted list, the index of the first occurrence of a member
equals the number of entries smaller than it. -/
theorem indexOf_eq_countP_of_sorted {l : List Int} (hs : l.Sorted (· < ·))
    {v : Int} (hv : v ∈ l) :
    l.indexOf v = l.countP (fun u => decide (u < v)) := by
  induction l with
  | nil => cases hv
  | cons b t ih =>
    rw [List.sorted_cons] at hs
    rcases List.mem_cons.mp hv with rfl | hvt
    · rw [List.indexOf_cons_self]
      have h0 : t.countP (fun u => decide (u < v)) = 0 := by
        rw [List.countP_eq_zero]
        intro a ha
        simp only [decide_eq_true_eq]
        exact not_lt_of_gt (hs.1 a ha)
      rw [List.countP_cons, h0]
      simp
    · have hbv : b < v := hs.1 v hvt
      have hne : b ≠ v := ne_of_lt hbv
      rw [List.indexOf_cons_ne _ hne, ih hs.2 hvt, List.countP_cons]
      simp [hbv, Nat.succ_eq_add_one]

/-- Rank of a value inside the distinct-value set of a column: the number of
distinct values strictly smaller than it.  This is the specification-side
notion of "rank within the sorted distinct-value set". -/
def rankIn (v : Int) (vals : List Int) : Nat :=
  (vals.toFinset.filter (fun u => u < v)).card

/-- The code-side coordinate `np.where(np.unique(vals) == v)[0][0]` (the index
of `v` in the sorted distinct array) is exactly the rank of `v`. -/
theorem indexOf_npUnique_eq_rankIn {vals : List Int} {v : Int} (hv : v ∈ vals) :
    (npUnique vals).indexOf v = rankIn v vals := by
  have hmem : v ∈ npUnique vals := mem_npUnique.mpr hv
  rw [indexOf_eq_countP_of_sorted (npUnique_sorted_lt vals) hmem]
  rw [List.countP_eq_length_filter]
  have hnd : ((npUnique vals).filter (fun u => decide (u < v))).Nodup :=
    (Finset.sort_nodup _ _).filter _
  rw [← List.toFinset_card_of_nodup hnd, List.toFinset_filter]
  have h2 : (npUnique vals).toFinset = vals.toFinset := Finset.sort_toFinset _ _
  rw [h2]
  simp [rankIn]

/-! ### imaging_db/filestorage/data_storage.py — DataStorage reassembly -/

namespace DataStorage

/-- One row of the `frames_meta` dataframe (per-frame metadata from the
Frames table): the four index columns and the frame file name. -/
structure FrameRow where
  slice_idx : Int
  channel_idx : Int
  time_idx : Int
  pos_idx : Int
  file_name : String
deriving DecidableEq

/-- The fields of the `global_meta` dict used by `get_stack_from_meta`,
including the dataset-wide `nbr_*` counts (present in the dict, but not used
when sizing the stack). -/
structure StorageGlobalMeta where
  im_height : Nat
  im_width : Nat
  im_colors : Nat
  bit_depth : String
  nbr_slices : Nat
  nbr_channels : Nat
  nbr_timepoints : Nat
  nbr_positions : Nat
deriving DecidableEq

/-- One 2D-plus-color plane (`im_height × im_width × im_colors` block),
modelled as a total pixel function. -/
def Plane : Type := Nat → Nat → Nat → Int

/-- The all-zero plane (contents of a freshly `np.zeros`-allocated slot). -/
def zeroPlane : Plane := fun _ _ _ => 0

/-- The 7-axis array, addressed plane-wise by its last four coordinates. -/
def Stack : Type := Nat → Nat → Nat → Nat → Plane

/-- The `unique_ids` dict of `make_stack_from_meta`. -/
structure UniqueIds where
  slices : List Int
  channels : List Int
  times : List Int
  pos : List Int

/-- The `unique_ids` computation: `np.unique` of each index column of
`frames_meta`. -/
def unique_ids_of (rows : List FrameRow) : UniqueIds where
  slices := npUnique (rows.map FrameRow.slice_idx)
  channels := npUnique (rows.map FrameRow.channel_idx)
  times := npUnique (rows.map FrameRow.time_idx)
  pos := npUnique (rows.map FrameRow.pos_idx)

/-- `DataStorage.make_stack_from_meta`: allocate the zero stack of shape
`(im_height, im_width, im_colors, len(unique slices), len(unique channels),
len(unique times), len(unique pos))` (dtype `bit_depth`) and return it with
the unique ids. -/
def make_stack_from_meta (g : StorageGlobalMeta) (rows : List FrameRow) :
    (List Nat × Stack) × UniqueIds :=
  let u := unique_ids_of rows
  (([g.im_height, g.im_width, g.im_colors,
     u.slices.length, u.channels.length, u.times.length, u.pos.length],
    fun _ _ _ _ => zeroPlane), u)

/-- The assignment coordinate for a row: for each dimension,
`np.where(unique == row value)[0][0]`, i.e. the index of the first (only)
occurrence of the value in the sorted distinct array. -/
def coordOf (u : UniqueIds) (r : FrameRow) : Nat × Nat × Nat × Nat :=
  (u.slices.indexOf r.slice_idx, u.channels.indexOf r.channel_idx,
   u.times.indexOf r.time_idx, u.pos.indexOf r.pos_idx)

/-- Write a whole plane at one (z, c, t, p) coordinate of the stack
(`im_stack[:, :, :, zi, ci, ti, pi] = plane`). -/
def writePlane (st : Stack) (q : Nat × Nat × Nat × Nat) (im : Plane) : Stack :=
  fun z c t p => if (z, c, t, p) = q then im else st z c t p

/-- The fill loop of `get_stack_from_meta`: iterate the rows of `frames_meta`
in order, writing each fetched (and `np.atleast_3d`-lifted) frame at its
coordinate. -/
def fill_stack (u : UniqueIds) (getIm : String → Plane) (rows : List FrameRow)
    (st : Stack) : Stack :=
  rows.foldl (fun s r => writePlane s (coordOf u r) (getIm r.file_name)) st

/-- The fixed axis label string `"XYGZCTP"`. -/
def dim_order : List Char := ['X', 'Y', 'G', 'Z', 'C', 'T', 'P']

/-- `np.where(np.asarray(im_stack.shape) == 1)[0]`: the positions of the
singleton axes. -/
def single_dims (shape : List Nat) : List Nat :=
  (List.range shape.length).filter (fun i => shape.getD i 0 == 1)

/-- The shape of `np.squeeze(im_stack)`: every axis of size 1 is removed,
the remaining axes keep their order. -/
def np_squeeze_shape (shape : List Nat) : List Nat :=
  (List.range shape.length).filterMap
    (fun i => if shape.getD i 0 == 1 then none else some (shape.getD i 0))

/-- `DataStorage.squeeze_stack` at the shape level: the squeezed shape plus
the `dim_str` built from the characters of `dim_order` whose position is not
a singleton axis. -/
def squeeze_stack (shape : List Nat) : List Nat × List Char :=
  (np_squeeze_shape shape,
   dim_order.filter (fun x => !((single_dims shape).contains (dim_order.indexOf x))))

/-- `DataStorage.get_stack_from_meta`: allocate via `make_stack_from_meta`,
fetch every row's frame with `get_im`, fill the stack, and squeeze.  Returns
the filled (pre-squeeze) stack together with the squeezed shape and the
dimension string. -/
def get_stack_from_meta (g : StorageGlobalMeta) (rows : List FrameRow)
    (getIm : String → Plane) : Stack × (List Nat × List Char) :=
  let alloc := make_stack_from_meta g rows
  let filled := fill_stack alloc.2 getIm rows alloc.1.2
  (filled, squeeze_stack alloc.1.1)

end DataStorage

namespace DataStorage

/-- Apply a stack to a packed (z, c, t, p) coordinate. -/
def applyStack (st : Stack) (q : Nat × Nat × Nat × Nat) : Plane :=
  st q.1 q.2.1 q.2.2.1 q.2.2.2

theorem applyStack_writePlane_self (st : Stack) (q : Nat × Nat × Nat × Nat)
    (im : Plane) : applyStack (writePlane st q im) q = im := by
  obtain ⟨z, c, t, p⟩ := q
  simp [applyStack, writePlane]

theorem applyStack_writePlane_ne (st : Stack) {q q' : Nat × Nat × Nat × Nat}
    (im : Plane) (h : q' ≠ q) :
    applyStack (writePlane st q im) q' = applyStack st q' := by
  obtain ⟨z, c, t, p⟩ := q'
  simp [applyStack, writePlane, h]

theorem fill_stack_cons (u : UniqueIds) (getIm : String → Plane) (r : FrameRow)
    (rows : List FrameRow) (st : Stack) :
    fill_stack u getIm (r :: rows) st =
      fill_stack u getIm rows (writePlane st (coordOf u r) (getIm r.file_name)) :=
  rfl

theorem fill_stack_untouched (u : UniqueIds) (getIm : String → Plane)
    (rows : List FrameRow) (st : Stack) (q : Nat × Nat × Nat × Nat)
    (h : ∀ r ∈ rows, coordOf u r ≠ q) :
    applyStack (fill_stack u getIm rows st) q = applyStack st q := by
  induction rows generalizing st with
  | nil => rfl
  | cons a tl ih =>
    rw [fill_stack_cons, ih _ fun r hr => h r (List.mem_cons_of_mem a hr)]
    exact applyStack_writePlane_ne st _ fun hq => h a (List.mem_cons_self a tl) hq.symm

theorem fill_stack_eq_of_mem (u : UniqueIds) (getIm : String → Plane)
    {rows : List FrameRow} (st : Stack)
    (hpw : rows.Pairwise (fun a b => coordOf u a ≠ coordOf u b))
    {r : FrameRow} (hr : r ∈ rows) :
    applyStack (fill_stack u getIm rows st) (coordOf u r) = getIm r.file_name := by
  induction rows generalizing st with
  | nil => cases hr
  | cons a tl ih =>
    rcases List.mem_cons.mp hr with rfl | hrt
    · rw [fill_stack_cons]
      rw [fill_stack_untouched u getIm tl _ (coordOf u r)
        fun x hx hc => ((List.pairwise_cons.mp hpw).1 x hx) hc.symm]
      exact applyStack_writePlane_self st _ _
    · exact ih _ (List.pairwise_cons.mp hpw).2 hrt

/-- The quadruple of index values of a row. -/
def quadOf (r : FrameRow) : Int × Int × Int × Int :=
  (r.slice_idx, r.channel_idx, r.time_idx, r.pos_idx)

end DataStorage

namespace DataStorage

theorem np_squeeze_shape_cons (a : Nat) (sh : List Nat) :
    np_squeeze_shape (a :: sh) =
      (if a == 1 then [] else [a]) ++ np_squeeze_shape sh := by
  by_cases h : a = 1 <;>
    simp [np_squeeze_shape, List.range_succ_eq_map, List.filterMap_cons, h,
      List.filterMap_map, Function.comp_def, Nat.succ_eq_add_one]

/-- What `np.squeeze` does to the shape: it removes exactly the axes of
size 1. -/
theorem np_squeeze_shape_eq_filter (shape : List Nat) :
    np_squeeze_shape shape = shape.filter (fun d => !(d == 1)) := by
  induction shape with
  | nil => rfl
  | cons a sh ih =>
    rw [np_squeeze_shape_cons, ih, List.filter_cons]
    cases h : a == 1 <;> simp [h]

theorem single_dims_cons (a : Nat) (sh : List Nat) :
    single_dims (a :: sh) =
      (if a == 1 then [0] else []) ++ (single_dims sh).map (· + 1) := by
  cases h : a == 1 <;>
    simp [single_dims, List.range_succ_eq_map, List.filter_cons, h,
      List.filter_map, Function.comp_def, Nat.succ_eq_add_one]

/-- The `dim_str` construction of `squeeze_stack` (filter the label list by
"my position is not a singleton axis") picks exactly the labels paired with
a non-1 axis extent, in order. -/
theorem filter_single_dims_eq_zip {os : List Char} (hnd : os.Nodup) :
    ∀ {sh : List Nat}, sh.length = os.length →
    os.filter (fun x => !((single_dims sh).contains (os.indexOf x))) =
      ((os.zip sh).filter (fun pr => !(pr.2 == 1))).map Prod.fst := by
  induction os with
  | nil =>
    intro sh h
    simp
  | cons x os ih =>
    intro sh hlen
    cases sh with
    | nil => simp at hlen
    | cons a sh =>
      have hlen2 : sh.length = os.length := by simpa using hlen
      have hx : x ∉ os := (List.nodup_cons.mp hnd).1
      have hnd2 : os.Nodup := (List.nodup_cons.mp hnd).2
      rw [List.filter_cons, List.zip_cons_cons, List.filter_cons]
      have hhead : (!((single_dims (a :: sh)).contains ((x :: os).indexOf x)))
          = (!(a == 1)) := by
        rw [List.indexOf_cons_self, single_dims_cons]
        cases h : a == 1 <;> simp [h, List.contains_iff_exists_mem_beq]
      have htail : os.filter
            (fun y => !((single_dims (a :: sh)).contains ((x :: os).indexOf y)))
          = os.filter (fun y => !((single_dims sh).contains (os.indexOf y))) := by
        apply List.filter_congr
        intro y hy
        have hxy : x ≠ y := fun h => hx (h ▸ hy)
        rw [List.indexOf_cons_ne _ hxy, single_dims_cons]
        cases h : a == 1 <;>
          simp [h, List.contains_iff_exists_mem_beq, Nat.succ_eq_add_one]
      rw [hhead, htail, ih hnd2 hlen2]
      cases h : a == 1 <;> simp [h]

end DataStorage

/-- Claim C1: for every global metadata record and non-empty filtered frame
row set, `make_stack_from_meta` allocates a zero-initialized buffer of shape
`[im_height, im_width, im_colors, n_slices, n_channels, n_times,
n_positions]`, where each of the last four extents is the number of distinct
values of the corresponding index among the filtered rows; the shape is
independent of the dataset-wide `nbr_*` fields of the global metadata. -/
theorem make_stack_from_meta_shape_spec (g : DataStorage.StorageGlobalMeta)
    (rows : List DataStorage.FrameRow) (hne : rows ≠ []) :
    (DataStorage.make_stack_from_meta g rows).1.1 =
      [g.im_height, g.im_width, g.im_colors,
       (rows.map DataStorage.FrameRow.slice_idx).toFinset.card,
       (rows.map DataStorage.FrameRow.channel_idx).toFinset.card,
       (rows.map DataStorage.FrameRow.time_idx).toFinset.card,
       (rows.map DataStorage.FrameRow.pos_idx).toFinset.card] ∧
    (∀ z c t p, (DataStorage.make_stack_from_meta g rows).1.2 z c t p =
      DataStorage.zeroPlane) ∧
    (∀ g2 : DataStorage.StorageGlobalMeta, g2.im_height = g.im_height →
      g2.im_width = g.im_width → g2.im_colors = g.im_colors →
      (DataStorage.make_stack_from_meta g2 rows).1.1 =
        (DataStorage.make_stack_from_meta g rows).1.1) := by
  refine ⟨?_, fun z c t p => rfl, fun g2 hh hw hc => ?_⟩
  · simp [DataStorage.make_stack_from_meta, DataStorage.unique_ids_of,
      npUnique_length]
  · simp [DataStorage.make_stack_from_meta, hh, hw, hc]

/-- Witness for C1: two rows with slice indices 5 and 7 (all other indices
shared), under global metadata whose `nbr_*` fields deliberately disagree,
give shape `[5, 4, 1, 2, 1, 1, 1]`. -/
theorem make_stack_from_meta_shape_spec_witness :
    (DataStorage.make_stack_from_meta
        ⟨5, 4, 1, "uint16", 9, 9, 9, 9⟩
        [⟨5, 2, 0, 0, "a"⟩, ⟨7, 2, 0, 0, "b"⟩]).1.1 = [5, 4, 1, 2, 1, 1, 1] := by
  have h := make_stack_from_meta_shape_spec ⟨5, 4, 1, "uint16", 9, 9, 9, 9⟩
    [⟨5, 2, 0, 0, "a"⟩, ⟨7, 2, 0, 0, "b"⟩] (by simp)
  rw [h.1]
  decide

/-- Claim C2: reassembly places each row's decoded plane at the coordinate
given by the rank of its four index values inside the sorted distinct-value
set of the respective dimension (not at the raw index values), for any frame
row set with pairwise distinct index quadruples — including non-zero-based
and non-contiguous index values. -/
theorem get_stack_from_meta_placement (g : DataStorage.StorageGlobalMeta)
    (rows : List DataStorage.FrameRow) (getIm : String → DataStorage.Plane)
    (hq : rows.Pairwise (fun a b => DataStorage.quadOf a ≠ DataStorage.quadOf b))
    (r : DataStorage.FrameRow) (hr : r ∈ rows) :
    (DataStorage.get_stack_from_meta g rows getIm).1
        (rankIn r.slice_idx (rows.map DataStorage.FrameRow.slice_idx))
        (rankIn r.channel_idx (rows.map DataStorage.FrameRow.channel_idx))
        (rankIn r.time_idx (rows.map DataStorage.FrameRow.time_idx))
        (rankIn r.pos_idx (rows.map DataStorage.FrameRow.pos_idx)) =
      getIm r.file_name := by
  set u := DataStorage.unique_ids_of rows with hu
  have hcoord : ∀ x ∈ rows, DataStorage.coordOf u x =
      (rankIn x.slice_idx (rows.map DataStorage.FrameRow.slice_idx),
       rankIn x.channel_idx (rows.map DataStorage.FrameRow.channel_idx),
       rankIn x.time_idx (rows.map DataStorage.FrameRow.time_idx),
       rankIn x.pos_idx (rows.map DataStorage.FrameRow.pos_idx)) := by
    intro x hx
    have h1 := indexOf_npUnique_eq_rankIn
      (List.mem_map_of_mem DataStorage.FrameRow.slice_idx hx)
    have h2 := indexOf_npUnique_eq_rankIn
      (List.mem_map_of_mem DataStorage.FrameRow.channel_idx hx)
    have h3 := indexOf_npUnique_eq_rankIn
      (List.mem_map_of_mem DataStorage.FrameRow.time_idx hx)
    have h4 := indexOf_npUnique_eq_rankIn
      (List.mem_map_of_mem DataStorage.FrameRow.pos_idx hx)
    simp [DataStorage.coordOf, hu, DataStorage.unique_ids_of, h1, h2, h3, h4]
  have hmemu : ∀ x ∈ rows,
      x.slice_idx ∈ u.slices ∧ x.channel_idx ∈ u.channels ∧
      x.time_idx ∈ u.times ∧ x.pos_idx ∈ u.pos := by
    intro x hx
    refine ⟨?_, ?_, ?_, ?_⟩ <;>
      simp only [hu, DataStorage.unique_ids_of, mem_npUnique] <;>
      exact List.mem_map_of_mem _ hx
  have hpw : rows.Pairwise
      (fun a b => DataStorage.coordOf u a ≠ DataStorage.coordOf u b) := by
    refine hq.imp_of_mem ?_
    intro a b ha hb hab hco
    apply hab
    obtain ⟨ha1, ha2, ha3, ha4⟩ := hmemu a ha
    obtain ⟨hb1, hb2, hb3, hb4⟩ := hmemu b hb
    simp only [DataStorage.coordOf, Prod.mk.injEq] at hco
    have e1 := (List.indexOf_inj ha1 hb1).mp hco.1
    have e2 := (List.indexOf_inj ha2 hb2).mp hco.2.1
    have e3 := (List.indexOf_inj ha3 hb3).mp hco.2.2.1
    have e4 := (List.indexOf_inj ha4 hb4).mp hco.2.2.2
    simp [DataStorage.quadOf, e1, e2, e3, e4]
  have hfill := DataStorage.fill_stack_eq_of_mem u getIm
    (fun _ _ _ _ => DataStorage.zeroPlane) hpw hr
  rw [hcoord r hr] at hfill
  exact hfill

/-- Witness for C2: two rows with non-zero-based, non-contiguous indices
(5,2,0,0) and (7,3,1,4); the second row's plane lands at rank coordinate
(1,1,1,1), i.e. at the plane returned by the fetcher for file "b". -/
theorem get_stack_from_meta_placement_witness :
    (DataStorage.get_stack_from_meta ⟨5, 4, 1, "uint16", 9, 9, 9, 9⟩
        [⟨5, 2, 0, 0, "a"⟩, ⟨7, 3, 1, 4, "b"⟩]
        (fun s => fun _ _ _ => (s.length : Int))).1
      (rankIn 7 [5, 7]) (rankIn 3 [2, 3]) (rankIn 1 [0, 1]) (rankIn 4 [0, 4]) =
      (fun _ _ _ => ((1 : Nat) : Int)) := by
  have h := get_stack_from_meta_placement ⟨5, 4, 1, "uint16", 9, 9, 9, 9⟩
    [⟨5, 2, 0, 0, "a"⟩, ⟨7, 3, 1, 4, "b"⟩]
    (fun s => fun _ _ _ => (s.length : Int))
    (by simp [DataStorage.quadOf]) ⟨7, 3, 1, 4, "b"⟩ (by simp)
  simpa using h

/-- Claim C3: `squeeze_stack` removes exactly the axes of size 1 from a
7-axis stack shape and returns the label string made of exactly those
characters of "XYGZCTP" whose axis extent differs from 1, in their original
relative order. -/
theorem squeeze_stack_spec (shape : List Nat) (h7 : shape.length = 7) :
    (DataStorage.squeeze_stack shape).1 = shape.filter (fun d => !(d == 1)) ∧
    (DataStorage.squeeze_stack shape).2 =
      ((DataStorage.dim_order.zip shape).filter
        (fun pr => !(pr.2 == 1))).map Prod.fst := by
  constructor
  · exact DataStorage.np_squeeze_shape_eq_filter shape
  · exact DataStorage.filter_single_dims_eq_zip (by decide)
      (by rw [h7]; rfl)

/-- Witness for C3: shape [5, 4, 1, 2, 1, 1, 3] squeezes to [5, 4, 2, 3]
with label string "XYZP". -/
theorem squeeze_stack_spec_witness :
    (DataStorage.squeeze_stack [5, 4, 1, 2, 1, 1, 3]).1 = [5, 4, 2, 3] ∧
    (DataStorage.squeeze_stack [5, 4, 1, 2, 1, 1, 3]).2 = ['X', 'Y', 'Z', 'P'] := by
  have h := squeeze_stack_spec [5, 4, 1, 2, 1, 1, 3] (by decide)
  exact ⟨h.1.trans (by decide), h.2.trans (by decide)⟩

/-! ### imaging_db/utils/cli_utils.py and imaging_db/cli/cli_utils.py —
validate_id -/

namespace CliUtils

/-- Python `id_str.split("-")` on a character list: split at every `'-'`;
adjacent or boundary separators produce empty fields. -/
def splitDash : List Char → List (List Char)
  | [] => [[]]
  | c :: rest =>
    match splitDash rest with
    | [] => [[]]
    | f :: fs => if c = '-' then [] :: f :: fs else (c :: f) :: fs

/-- ASCII decimal digit test (the characters accepted by Python's `int`). -/
def isDigitChar (c : Char) : Bool :=
  decide (48 ≤ c.toNat) && decide (c.toNat ≤ 57)

/-- ASCII letter test (for the project-code field of a serial). -/
def isAlphaChar (c : Char) : Bool :=
  (decide (65 ≤ c.toNat) && decide (c.toNat ≤ 90)) ||
    (decide (97 ≤ c.toNat) && decide (c.toNat ≤ 122))

/-- Decimal value of an all-digit field. -/
def fieldVal (s : List Char) : Nat :=
  s.foldl (fun n c => 10 * n + (c.toNat - 48)) 0

/-- Python `int()` on a split field.  A field produced by splitting on `'-'`
can never contain a minus sign, so the model covers exactly the non-empty
all-digit fields (Python additionally tolerates surrounding whitespace and a
leading plus, which no field of the claims exercises). -/
def pyInt (s : List Char) : Option Nat :=
  if s.isEmpty then none
  else if s.all isDigitChar then some (fieldVal s) else none

/-- One bounds check `lo <= int(s) <= hi`; also false when `int()` itself
raises. -/
def inRange (s : List Char) (lo hi : Nat) : Bool :=
  match pyInt s with
  | some n => decide (lo ≤ n) && decide (n ≤ hi)
  | none => false

/-- `imaging_db/utils/cli_utils.py::validate_id`, with the chain of asserts
(and the `int()` conversions) reduced to one Bool: `true` means no exception
is raised. -/
def validate_id (idStr : List Char) : Bool :=
  let f := splitDash idStr
  (f.length == 8) &&
  ((f.getD 1 []).length == 4) &&
  ((f.getD 2 []).length == 2) &&
  ((f.getD 3 []).length == 2) &&
  ((f.getD 4 []).length == 2) &&
  ((f.getD 5 []).length == 2) &&
  ((f.getD 6 []).length == 2) &&
  inRange (f.getD 2 []) 1 12 &&
  inRange (f.getD 3 []) 1 31 &&
  inRange (f.getD 4 []) 0 23 &&
  inRange (f.getD 5 []) 0 59 &&
  inRange (f.getD 6 []) 0 59 &&
  ((f.getD 7 []).length == 4) &&
  inRange (f.getD 7 []) 0 9999

/-- `imaging_db/cli/cli_utils.py::validate_id`: identical except for the
additional check `substrs[0] in {"ISP", "ML"}`. -/
def validate_id_cli (idStr : List Char) : Bool :=
  let f := splitDash idStr
  (f.length == 8) &&
  ((f.getD 0 [] == ['I', 'S', 'P']) || (f.getD 0 [] == ['M', 'L'])) &&
  ((f.getD 1 []).length == 4) &&
  ((f.getD 2 []).length == 2) &&
  ((f.getD 3 []).length == 2) &&
  ((f.getD 4 []).length == 2) &&
  ((f.getD 5 []).length == 2) &&
  ((f.getD 6 []).length == 2) &&
  inRange (f.getD 2 []) 1 12 &&
  inRange (f.getD 3 []) 1 31 &&
  inRange (f.getD 4 []) 0 23 &&
  inRange (f.getD 5 []) 0 59 &&
  inRange (f.getD 6 []) 0 59 &&
  ((f.getD 7 []).length == 4) &&
  inRange (f.getD 7 []) 0 9999

/-- Assemble a serial from its eight fields, hyphen-delimited. -/
def mkSerial (p y mo d h mi sec seq : List Char) : List Char :=
  p ++ '-' :: y ++ '-' :: mo ++ '-' :: d ++ '-' :: h ++ '-' :: mi ++
    '-' :: sec ++ '-' :: seq

/-- A field that contains no separator. -/
def noDash (s : List Char) : Prop := ∀ c ∈ s, c ≠ '-'

instance (s : List Char) : Decidable (noDash s) := by
  unfold noDash
  exact inferInstance

/-- The grammar of §6 of the spec: 2-3 letter project code, 4-digit year,
2-digit month 1-12, day 1-31, hour 0-23, minute and second 0-59, and a
4-digit sequence. -/
def WellFormedSerial (p y mo d h mi sec seq : List Char) : Prop :=
  (2 ≤ p.length ∧ p.length ≤ 3) ∧ p.all isAlphaChar = true ∧
  y.length = 4 ∧ y.all isDigitChar = true ∧
  mo.length = 2 ∧ mo.all isDigitChar = true ∧
    1 ≤ fieldVal mo ∧ fieldVal mo ≤ 12 ∧
  d.length = 2 ∧ d.all isDigitChar = true ∧
    1 ≤ fieldVal d ∧ fieldVal d ≤ 31 ∧
  h.length = 2 ∧ h.all isDigitChar = true ∧ fieldVal h ≤ 23 ∧
  mi.length = 2 ∧ mi.all isDigitChar = true ∧ fieldVal mi ≤ 59 ∧
  sec.length = 2 ∧ sec.all isDigitChar = true ∧ fieldVal sec ≤ 59 ∧
  seq.length = 4 ∧ seq.all isDigitChar = true

instance (p y mo d h mi sec seq : List Char) :
    Decidable (WellFormedSerial p y mo d h mi sec seq) := by
  unfold WellFormedSerial
  exact inferInstance

theorem splitDash_ne_nil (s : List Char) : splitDash s ≠ [] := by
  cases s with
  | nil => simp [splitDash]
  | cons c rest =>
    simp only [splitDash]
    rcases h : splitDash rest with _ | ⟨f, fs⟩
    · simp
    · by_cases hc : c = '-' <;> simp [hc]

theorem splitDash_no_dash {a : List Char} (h : noDash a) : splitDash a = [a] := by
  induction a with
  | nil => rfl
  | cons c rest ih =>
    have hc : c ≠ '-' := h c (List.mem_cons_self c rest)
    have hrest : noDash rest := fun x hx => h x (List.mem_cons_of_mem c hx)
    simp only [splitDash, ih hrest]
    simp [hc]

theorem splitDash_append {a : List Char} (r : List Char) (h : noDash a) :
    splitDash (a ++ '-' :: r) = a :: splitDash r := by
  induction a with
  | nil =>
    simp only [List.nil_append, splitDash]
    rcases hr : splitDash r with _ | ⟨f, fs⟩
    · exact absurd hr (splitDash_ne_nil r)
    · simp
  | cons c rest ih =>
    have hc : c ≠ '-' := h c (List.mem_cons_self c rest)
    have hrest : noDash rest := fun x hx => h x (List.mem_cons_of_mem c hx)
    have ih2 := ih hrest
    simp only [List.cons_append, splitDash, List.append_eq]
    rw [ih2]
    simp [hc]

theorem digits_noDash {s : List Char} (h : s.all isDigitChar = true) :
    noDash s := by
  intro c hc hdash
  have := List.all_eq_true.mp h c hc
  subst hdash
  simp [isDigitChar] at this

theorem alpha_noDash {s : List Char} (h : s.all isAlphaChar = true) :
    noDash s := by
  intro c hc hdash
  have := List.all_eq_true.mp h c hc
  subst hdash
  simp [isAlphaChar] at this

theorem splitDash_mkSerial {p y mo d h mi sec seq : List Char}
    (hp : noDash p) (hy : noDash y) (hmo : noDash mo) (hd : noDash d)
    (hh : noDash h) (hmi : noDash mi) (hsec : noDash sec) (hseq : noDash seq) :
    splitDash (mkSerial p y mo d h mi sec seq) =
      [p, y, mo, d, h, mi, sec, seq] := by
  unfold mkSerial
  simp only [List.cons_append, List.append_assoc]
  rw [splitDash_append _ hp, splitDash_append _ hy, splitDash_append _ hmo,
    splitDash_append _ hd, splitDash_append _ hh, splitDash_append _ hmi,
    splitDash_append _ hsec, splitDash_no_dash hseq]

theorem pyInt_digits {s : List Char} (hne : s ≠ [])
    (hd : s.all isDigitChar = true) : pyInt s = some (fieldVal s) := by
  simp [pyInt, hne, hd]

theorem inRange_true {s : List Char} {lo hi : Nat} (hne : s ≠ [])
    (hd : s.all isDigitChar = true) (h1 : lo ≤ fieldVal s)
    (h2 : fieldVal s ≤ hi) : inRange s lo hi = true := by
  simp [inRange, pyInt_digits hne hd, h1, h2]

theorem inRange_false {s : List Char} {lo hi : Nat}
    (hd : s.all isDigitChar = true)
    (h : ¬(lo ≤ fieldVal s ∧ fieldVal s ≤ hi)) : inRange s lo hi = false := by
  cases hs : s.isEmpty
  · rw [inRange, pyInt_digits (by simpa [List.isEmpty_iff] using hs) hd]
    rcases Decidable.not_and_iff_or_not.mp h with h1 | h1 <;> simp [h1]
  · simp [inRange, pyInt, hs]

theorem foldl_digit_bound {s : List Char} (hd : s.all isDigitChar = true) :
    ∀ acc : Nat, s.foldl (fun n c => 10 * n + (c.toNat - 48)) acc <
      (acc + 1) * 10 ^ s.length := by
  induction s with
  | nil => intro acc; simpa using Nat.lt_succ_self acc
  | cons c t ih =>
    intro acc
    rw [List.all_cons, Bool.and_eq_true] at hd
    have hc9 : c.toNat - 48 ≤ 9 := by
      have := hd.1
      simp only [isDigitChar, Bool.and_eq_true, decide_eq_true_eq] at this
      omega
    have step := ih hd.2 (10 * acc + (c.toNat - 48))
    have hle : (10 * acc + (c.toNat - 48) + 1) * 10 ^ t.length ≤
        (acc + 1) * 10 ^ (t.length + 1) := by
      rw [pow_succ]
      calc (10 * acc + (c.toNat - 48) + 1) * 10 ^ t.length
          ≤ (10 * (acc + 1)) * 10 ^ t.length := by
            apply Nat.mul_le_mul_right
            omega
        _ = (acc + 1) * 10 ^ t.length * 10 := by ring
        _ = (acc + 1) * (10 ^ t.length * 10) := by ring
    calc (c :: t).foldl (fun n ch => 10 * n + (ch.toNat - 48)) acc
        = t.foldl (fun n ch => 10 * n + (ch.toNat - 48))
            (10 * acc + (c.toNat - 48)) := rfl
      _ < (10 * acc + (c.toNat - 48) + 1) * 10 ^ t.length := step
      _ ≤ (acc + 1) * 10 ^ (t.length + 1) := hle

theorem fieldVal_lt {s : List Char} (hd : s.all isDigitChar = true) :
    fieldVal s < 10 ^ s.length := by
  simpa [fieldVal] using foldl_digit_bound hd 0

end CliUtils

/-- Claim C4 as stated is false: the serial "AB-2020-01-02-03-04-05-0001" is
well-formed per the grammar (2-letter project code, all fields in range),
yet the cli variant of validate_id rejects it, because that variant
additionally requires the project code to be exactly "ISP" or "ML". -/
theorem validate_id_cli_counterexample :
    CliUtils.WellFormedSerial ['A', 'B'] ['2', '0', '2', '0'] ['0', '1']
        ['0', '2'] ['0', '3'] ['0', '4'] ['0', '5'] ['0', '0', '0', '1'] ∧
    CliUtils.validate_id_cli (CliUtils.mkSerial ['A', 'B'] ['2', '0', '2', '0']
        ['0', '1'] ['0', '2'] ['0', '3'] ['0', '4'] ['0', '5']
        ['0', '0', '0', '1']) = false := by
  constructor
  · decide
  · decide

namespace CliUtils

/-- Rejection by both variants of `validate_id`. -/
def bothReject (s : List Char) : Prop :=
  validate_id s = false ∧ validate_id_cli s = false

theorem validate_id_accepts {p y mo d h mi sec seq : List Char}
    (wf : WellFormedSerial p y mo d h mi sec seq) :
    validate_id (mkSerial p y mo d h mi sec seq) = true := by
  obtain ⟨⟨hp2, hp3⟩, hpa, hy4, hyd, hmo2, hmod, hmo1, hmo12, hd2, hdd, hd1,
    hd31, hh2, hhd, hh23, hmi2, hmid, hmi59, hs2, hsd, hs59, hq4, hqd⟩ := wf
  have hsplit := splitDash_mkSerial (alpha_noDash hpa) (digits_noDash hyd)
    (digits_noDash hmod) (digits_noDash hdd) (digits_noDash hhd)
    (digits_noDash hmid) (digits_noDash hsd) (digits_noDash hqd)
  have hmone : mo ≠ [] := by intro hx; rw [hx] at hmo2; simp at hmo2
  have hdne : d ≠ [] := by intro hx; rw [hx] at hd2; simp at hd2
  have hhne : h ≠ [] := by intro hx; rw [hx] at hh2; simp at hh2
  have hmine : mi ≠ [] := by intro hx; rw [hx] at hmi2; simp at hmi2
  have hsne : sec ≠ [] := by intro hx; rw [hx] at hs2; simp at hs2
  have hqne : seq ≠ [] := by intro hx; rw [hx] at hq4; simp at hq4
  have hqle : fieldVal seq ≤ 9999 := by
    have := fieldVal_lt hqd
    rw [hq4] at this
    omega
  simp [validate_id, hsplit, hy4, hmo2, hd2, hh2, hmi2, hs2, hq4,
    inRange_true hmone hmod hmo1 hmo12, inRange_true hdne hdd hd1 hd31,
    inRange_true hhne hhd (Nat.zero_le _) hh23,
    inRange_true hmine hmid (Nat.zero_le _) hmi59,
    inRange_true hsne hsd (Nat.zero_le _) hs59,
    inRange_true hqne hqd (Nat.zero_le _) hqle]

theorem validate_id_cli_accepts {p y mo d h mi sec seq : List Char}
    (wf : WellFormedSerial p y mo d h mi sec seq)
    (hp : p = ['I', 'S', 'P'] ∨ p = ['M', 'L']) :
    validate_id_cli (mkSerial p y mo d h mi sec seq) = true := by
  obtain ⟨⟨hp2, hp3⟩, hpa, hy4, hyd, hmo2, hmod, hmo1, hmo12, hd2, hdd, hd1,
    hd31, hh2, hhd, hh23, hmi2, hmid, hmi59, hs2, hsd, hs59, hq4, hqd⟩ := wf
  have hsplit := splitDash_mkSerial (alpha_noDash hpa) (digits_noDash hyd)
    (digits_noDash hmod) (digits_noDash hdd) (digits_noDash hhd)
    (digits_noDash hmid) (digits_noDash hsd) (digits_noDash hqd)
  have hmone : mo ≠ [] := by intro hx; rw [hx] at hmo2; simp at hmo2
  have hdne : d ≠ [] := by intro hx; rw [hx] at hd2; simp at hd2
  have hhne : h ≠ [] := by intro hx; rw [hx] at hh2; simp at hh2
  have hmine : mi ≠ [] := by intro hx; rw [hx] at hmi2; simp at hmi2
  have hsne : sec ≠ [] := by intro hx; rw [hx] at hs2; simp at hs2
  have hqne : seq ≠ [] := by intro hx; rw [hx] at hq4; simp at hq4
  have hqle : fieldVal seq ≤ 9999 := by
    have := fieldVal_lt hqd
    rw [hq4] at this
    omega
  rcases hp with rfl | rfl <;>
    simp [validate_id_cli, hsplit, hy4, hmo2, hd2, hh2, hmi2, hs2, hq4,
      inRange_true hmone hmod hmo1 hmo12, inRange_true hdne hdd hd1 hd31,
      inRange_true hhne hhd (Nat.zero_le _) hh23,
      inRange_true hmine hmid (Nat.zero_le _) hmi59,
      inRange_true hsne hsd (Nat.zero_le _) hs59,
      inRange_true hqne hqd (Nat.zero_le _) hqle]

theorem bothReject_of_count {s : List Char}
    (hc : (splitDash s).length ≠ 8) : bothReject s := by
  have h8 : ((splitDash s).length == 8) = false := beq_eq_false_iff_ne.mpr hc
  exact ⟨by simp [validate_id, h8], by simp [validate_id_cli, h8]⟩

end CliUtils

/-- Claim C4 corrected: the utils variant of validate_id accepts every serial
matching the grammar (any 2-3 letter project code); the cli variant accepts
a grammatical serial only when its project code is exactly "ISP" or "ML";
and both variants fail, before any I/O, on a wrong field count, a wrong
digit length for year, month, day, hour, minute, second or sequence, or an
out-of-range month, day, hour, minute, second or sequence value. -/
theorem validate_id_spec_amended :
    (∀ p y mo d h mi sec seq : List Char,
      CliUtils.WellFormedSerial p y mo d h mi sec seq →
      CliUtils.validate_id (CliUtils.mkSerial p y mo d h mi sec seq) = true) ∧
    (∀ p y mo d h mi sec seq : List Char,
      CliUtils.WellFormedSerial p y mo d h mi sec seq →
      (p = ['I', 'S', 'P'] ∨ p = ['M', 'L']) →
      CliUtils.validate_id_cli (CliUtils.mkSerial p y mo d h mi sec seq) = true) ∧
    (∀ s : List Char, (CliUtils.splitDash s).length ≠ 8 →
      CliUtils.bothReject s) ∧
    (∀ p y mo d h mi sec seq : List Char,
      (∀ f ∈ [p, y, mo, d, h, mi, sec, seq], CliUtils.noDash f) →
      (y.length ≠ 4 →
        CliUtils.bothReject (CliUtils.mkSerial p y mo d h mi sec seq)) ∧
      (mo.length ≠ 2 →
        CliUtils.bothReject (CliUtils.mkSerial p y mo d h mi sec seq)) ∧
      (d.length ≠ 2 →
        CliUtils.bothReject (CliUtils.mkSerial p y mo d h mi sec seq)) ∧
      (h.length ≠ 2 →
        CliUtils.bothReject (CliUtils.mkSerial p y mo d h mi sec seq)) ∧
      (mi.length ≠ 2 →
        CliUtils.bothReject (CliUtils.mkSerial p y mo d h mi sec seq)) ∧
      (sec.length ≠ 2 →
        CliUtils.bothReject (CliUtils.mkSerial p y mo d h mi sec seq)) ∧
      (seq.length ≠ 4 →
        CliUtils.bothReject (CliUtils.mkSerial p y mo d h mi sec seq)) ∧
      (mo.all CliUtils.isDigitChar = true →
        ¬(1 ≤ CliUtils.fieldVal mo ∧ CliUtils.fieldVal mo ≤ 12) →
        CliUtils.bothReject (CliUtils.mkSerial p y mo d h mi sec seq)) ∧
      (d.all CliUtils.isDigitChar = true →
        ¬(1 ≤ CliUtils.fieldVal d ∧ CliUtils.fieldVal d ≤ 31) →
        CliUtils.bothReject (CliUtils.mkSerial p y mo d h mi sec seq)) ∧
      (h.all CliUtils.isDigitChar = true → 23 < CliUtils.fieldVal h →
        CliUtils.bothReject (CliUtils.mkSerial p y mo d h mi sec seq)) ∧
      (mi.all CliUtils.isDigitChar = true → 59 < CliUtils.fieldVal mi →
        CliUtils.bothReject (CliUtils.mkSerial p y mo d h mi sec seq)) ∧
      (sec.all CliUtils.isDigitChar = true → 59 < CliUtils.fieldVal sec →
        CliUtils.bothReject (CliUtils.mkSerial p y mo d h mi sec seq)) ∧
      (seq.all CliUtils.isDigitChar = true → 9999 < CliUtils.fieldVal seq →
        CliUtils.bothReject (CliUtils.mkSerial p y mo d h mi sec seq))) := by
  refine ⟨fun p y mo d h mi sec seq wf => CliUtils.validate_id_accepts wf,
    fun p y mo d h mi sec seq wf hp => CliUtils.validate_id_cli_accepts wf hp,
    fun s hc => CliUtils.bothReject_of_count hc,
    fun p y mo d h mi sec seq hnd => ?_⟩
  have hp := hnd p (by simp)
  have hy := hnd y (by simp)
  have hmo := hnd mo (by simp)
  have hd := hnd d (by simp)
  have hh := hnd h (by simp)
  have hmi := hnd mi (by simp)
  have hsec := hnd sec (by simp)
  have hseq := hnd seq (by simp)
  have hsplit := CliUtils.splitDash_mkSerial hp hy hmo hd hh hmi hsec hseq
  refine ⟨fun hbad => ?_, fun hbad => ?_, fun hbad => ?_, fun hbad => ?_,
    fun hbad => ?_, fun hbad => ?_, fun hbad => ?_,
    fun hdig hbad => ?_, fun hdig hbad => ?_, fun hdig hbad => ?_,
    fun hdig hbad => ?_, fun hdig hbad => ?_, fun hdig hbad => ?_⟩
  · have hf : (y.length == 4) = false := beq_eq_false_iff_ne.mpr hbad
    exact ⟨by simp [CliUtils.validate_id, hsplit, hf],
      by simp [CliUtils.validate_id_cli, hsplit, hf]⟩
  · have hf : (mo.length == 2) = false := beq_eq_false_iff_ne.mpr hbad
    exact ⟨by simp [CliUtils.validate_id, hsplit, hf],
      by simp [CliUtils.validate_id_cli, hsplit, hf]⟩
  · have hf : (d.length == 2) = false := beq_eq_false_iff_ne.mpr hbad
    exact ⟨by simp [CliUtils.validate_id, hsplit, hf],
      by simp [CliUtils.validate_id_cli, hsplit, hf]⟩
  · have hf : (h.length == 2) = false := beq_eq_false_iff_ne.mpr hbad
    exact ⟨by simp [CliUtils.validate_id, hsplit, hf],
      by simp [CliUtils.validate_id_cli, hsplit, hf]⟩
  · have hf : (mi.length == 2) = false := beq_eq_false_iff_ne.mpr hbad
    exact ⟨by simp [CliUtils.validate_id, hsplit, hf],
      by simp [CliUtils.validate_id_cli, hsplit, hf]⟩
  · have hf : (sec.length == 2) = false := beq_eq_false_iff_ne.mpr hbad
    exact ⟨by simp [CliUtils.validate_id, hsplit, hf],
      by simp [CliUtils.validate_id_cli, hsplit, hf]⟩
  · have hf : (seq.length == 4) = false := beq_eq_false_iff_ne.mpr hbad
    exact ⟨by simp [CliUtils.validate_id, hsplit, hf],
      by simp [CliUtils.validate_id_cli, hsplit, hf]⟩
  · have hf : CliUtils.inRange mo 1 12 = false := CliUtils.inRange_false hdig hbad
    exact ⟨by simp [CliUtils.validate_id, hsplit, hf],
      by simp [CliUtils.validate_id_cli, hsplit, hf]⟩
  · have hf : CliUtils.inRange d 1 31 = false := CliUtils.inRange_false hdig hbad
    exact ⟨by simp [CliUtils.validate_id, hsplit, hf],
      by simp [CliUtils.validate_id_cli, hsplit, hf]⟩
  · have hf : CliUtils.inRange h 0 23 = false :=
      CliUtils.inRange_false hdig (by omega)
    exact ⟨by simp [CliUtils.validate_id, hsplit, hf],
      by simp [CliUtils.validate_id_cli, hsplit, hf]⟩
  · have hf : CliUtils.inRange mi 0 59 = false :=
      CliUtils.inRange_false hdig (by omega)
    exact ⟨by simp [CliUtils.validate_id, hsplit, hf],
      by simp [CliUtils.validate_id_cli, hsplit, hf]⟩
  · have hf : CliUtils.inRange sec 0 59 = false :=
      CliUtils.inRange_false hdig (by omega)
    exact ⟨by simp [CliUtils.validate_id, hsplit, hf],
      by simp [CliUtils.validate_id_cli, hsplit, hf]⟩
  · have hlen : seq.length ≠ 4 := by
      intro h4
      have := CliUtils.fieldVal_lt hdig
      rw [h4] at this
      omega
    have hf : (seq.length == 4) = false := beq_eq_false_iff_ne.mpr hlen
    exact ⟨by simp [CliUtils.validate_id, hsplit, hf],
      by simp [CliUtils.validate_id_cli, hsplit, hf]⟩

/-- Witness for the amended C4: the utils variant accepts
"AB-2020-01-02-03-04-05-0001"; the cli variant accepts
"ML-2020-01-02-03-04-05-0001"; both variants reject the 7-field string
"ISP-2018-06-08-15-45-0001" and a serial with month field "50". -/
theorem validate_id_spec_amended_witness :
    CliUtils.validate_id (CliUtils.mkSerial ['A', 'B'] ['2', '0', '2', '0']
      ['0', '1'] ['0', '2'] ['0', '3'] ['0', '4'] ['0', '5']
      ['0', '0', '0', '1']) = true ∧
    CliUtils.validate_id_cli (CliUtils.mkSerial ['M', 'L'] ['2', '0', '2', '0']
      ['0', '1'] ['0', '2'] ['0', '3'] ['0', '4'] ['0', '5']
      ['0', '0', '0', '1']) = true ∧
    CliUtils.bothReject ['I', 'S', 'P', '-', '2', '0', '1', '8', '-', '0',
      '6', '-', '0', '8', '-', '1', '5', '-', '4', '5', '-', '0', '0', '0',
      '1'] ∧
    CliUtils.bothReject (CliUtils.mkSerial ['M', 'L'] ['2', '0', '2', '0']
      ['5', '0'] ['0', '2'] ['0', '3'] ['0', '4'] ['0', '5']
      ['0', '0', '0', '1']) := by
  refine ⟨validate_id_spec_amended.1 _ _ _ _ _ _ _ _ (by decide),
    validate_id_spec_amended.2.1 _ _ _ _ _ _ _ _ (by decide) (Or.inr rfl),
    validate_id_spec_amended.2.2.1 _ (by decide),
    (validate_id_spec_amended.2.2.2 ['M', 'L'] ['2', '0', '2', '0']
      ['5', '0'] ['0', '2'] ['0', '3'] ['0', '4'] ['0', '5']
      ['0', '0', '0', '1'] (by decide)).2.2.2.2.2.2.2.1 (by decide) (by decide)⟩

/-! ### imaging_db/filestorage/s3_storage.py — DataStorage.upload_frames -/

namespace S3Storage

/-- The S3 key `"/".join([self.s3_dir, file_name])`. -/
def mkKey (s3_dir name : List Char) : List Char := s3_dir ++ '/' :: name

/-- `list_objects_v2(Bucket, Prefix=key)["KeyCount"] > 0`: does some stored
object have `key` as a prefix of its key?  The store models the bucket as
the list of (key, bytes) pairs in upload order. -/
def keyExists {β : Type} (store : List (List Char × β)) (key : List Char) : Bool :=
  store.any (fun kv => key.isPrefixOf kv.1)

/-- Fetch the object stored at exactly `key` (first match). -/
def getObj {β : Type} (store : List (List Char × β)) (key : List Char) : Option β :=
  (store.find? (fun kv => kv.1 == key)).map Prod.snd

/-- `DataStorage.upload_frames` of the S3 backend: assert that the number of
file names matches the stack's last dimension, then for each frame check
`list_objects_v2` on its key — serializing and collecting only the keys that
do not exist yet (the others are logged and skipped) — and finally put all
collected objects.  `ser` models `image_utils.serialize_im`; `none` models
the AssertionError. -/
def upload_frames {α β : Type} (ser : α → β) (store : List (List Char × β))
    (s3_dir : List Char) (file_names : List (List Char)) (im_stack : List α) :
    Option (List (List Char × β)) :=
  if file_names.length ≠ im_stack.length then none
  else
    some (store ++ (file_names.zip im_stack).filterMap
      (fun nm => if keyExists store (mkKey s3_dir nm.1) then none
                 else some (mkKey s3_dir nm.1, ser nm.2)))

theorem isPrefixOf_self (l : List Char) : l.isPrefixOf l = true := by
  induction l with
  | nil => rfl
  | cons c t ih => simp [List.isPrefixOf, ih]

theorem mkKey_inj {s3_dir a b : List Char} (h : mkKey s3_dir a = mkKey s3_dir b) :
    a = b := by
  unfold mkKey at h
  have := List.append_cancel_left h
  exact List.cons.inj this |>.2

theorem keyExists_append {β : Type} (s1 s2 : List (List Char × β))
    (k : List Char) :
    keyExists (s1 ++ s2) k = (keyExists s1 k || keyExists s2 k) := by
  simp [keyExists]

theorem getObj_append_of_found {β : Type} {s1 : List (List Char × β)}
    (s2 : List (List Char × β)) {k : List Char} {b : β}
    (h : getObj s1 k = some b) : getObj (s1 ++ s2) k = some b := by
  unfold getObj at h ⊢
  rcases hf : s1.find? (fun kv => kv.1 == k) with _ | kv
  · rw [hf] at h; cases h
  · rw [hf] at h
    rw [List.find?_append, hf]
    simpa using h

/-- Helper: in the freshly-uploaded part, the entry for a batch name whose
key was new is found, provided the batch file names are distinct. -/
theorem find?_upload_part {α β : Type} (ser : α → β)
    (store : List (List Char × β)) (s3_dir : List Char) :
    ∀ (pairs : List (List Char × α)), (pairs.map Prod.fst).Nodup →
    ∀ nm im, (nm, im) ∈ pairs →
    keyExists store (mkKey s3_dir nm) = false →
    (pairs.filterMap
        (fun q => if keyExists store (mkKey s3_dir q.1) then none
                  else some (mkKey s3_dir q.1, ser q.2))).find?
        (fun kv => kv.1 == mkKey s3_dir nm) = some (mkKey s3_dir nm, ser im) := by
  intro pairs
  induction pairs with
  | nil => intro _ nm im hmem; cases hmem
  | cons q rest ih =>
    intro hnd nm im hmem hnew
    rw [List.map_cons, List.nodup_cons] at hnd
    rcases List.mem_cons.mp hmem with heq | hrest
    · have hq : q = (nm, im) := heq.symm
      subst hq
      simp only [List.filterMap_cons, hnew]
      simp [List.find?_cons]
    · have hne : q.1 ≠ nm := by
        intro he
        exact hnd.1 (he ▸ (List.mem_map_of_mem Prod.fst hrest))
      have hkne : (mkKey s3_dir q.1 == mkKey s3_dir nm) = false := by
        rw [beq_eq_false_iff_ne]
        intro hk
        exact hne (mkKey_inj hk)
      rcases hq : keyExists store (mkKey s3_dir q.1) with _ | _
      · simp only [List.filterMap_cons, hq, if_neg Bool.false_ne_true]
        rw [List.find?_cons]
        simp only [hkne]
        exact ih hnd.2 nm im hrest hnew
      · simp only [List.filterMap_cons, hq, if_pos rfl]
        exact ih hnd.2 nm im hrest hnew

end S3Storage

/-- Behaviour of the current bulk upload, `s3_storage.DataStorage
.upload_frames`: for a batch whose file-name count matches the stack and
whose file names are distinct, items whose storage path already exists under
the dataset prefix are skipped rather than failing the batch, every
remaining item is still uploaded, the pre-existing objects are untouched,
and re-running the identical upload is accepted and leaves the store
unchanged. -/
theorem upload_frames_spec {α β : Type} (ser : α → β)
    (store : List (List Char × β)) (s3_dir : List Char)
    (file_names : List (List Char)) (im_stack : List α)
    (hlen : file_names.length = im_stack.length) (hnd : file_names.Nodup) :
    ∃ store2,
      S3Storage.upload_frames ser store s3_dir file_names im_stack = some store2 ∧
      (∀ k b, S3Storage.getObj store k = some b →
        S3Storage.getObj store2 k = some b) ∧
      (∀ nm im, (nm, im) ∈ file_names.zip im_stack →
        S3Storage.keyExists store (S3Storage.mkKey s3_dir nm) = false →
        S3Storage.getObj store2 (S3Storage.mkKey s3_dir nm) = some (ser im)) ∧
      S3Storage.upload_frames ser store2 s3_dir file_names im_stack =
        some store2 := by
  have hpairs : ((file_names.zip im_stack).map Prod.fst).Nodup :=
    (List.map_fst_zip file_names im_stack (le_of_eq hlen)).symm ▸ hnd
  refine ⟨store ++ (file_names.zip im_stack).filterMap
      (fun nm => if S3Storage.keyExists store (S3Storage.mkKey s3_dir nm.1)
                 then none
                 else some (S3Storage.mkKey s3_dir nm.1, ser nm.2)),
    ?_, ?_, ?_, ?_⟩
  · simp [S3Storage.upload_frames, hlen]
  · intro k b hk
    exact S3Storage.getObj_append_of_found _ hk
  · intro nm im hmem hnew
    have hfound := S3Storage.find?_upload_part ser store s3_dir
      (file_names.zip im_stack) hpairs nm im hmem hnew
    have hnone : store.find?
        (fun kv => kv.1 == S3Storage.mkKey s3_dir nm) = none := by
      rcases hf : store.find? (fun kv => kv.1 == S3Storage.mkKey s3_dir nm)
        with _ | kv
      · exact hf
      · exfalso
        have hkv := List.find?_some hf
        have hmemkv := List.mem_of_find?_eq_some hf
        have : S3Storage.keyExists store (S3Storage.mkKey s3_dir nm) = true := by
          unfold S3Storage.keyExists
          rw [List.any_eq_true]
          refine ⟨kv, hmemkv, ?_⟩
          have : kv.1 = S3Storage.mkKey s3_dir nm := by
            have := hkv
            simpa [beq_iff_eq] using this
          rw [this]
          exact S3Storage.isPrefixOf_self _
        rw [this] at hnew
        cases hnew
    unfold S3Storage.getObj
    rw [List.find?_append, hnone, Option.none_or, hfound]
    rfl
  · have hall : ∀ q ∈ file_names.zip im_stack,
        S3Storage.keyExists
          (store ++ (file_names.zip im_stack).filterMap
            (fun nm => if S3Storage.keyExists store (S3Storage.mkKey s3_dir nm.1)
                       then none
                       else some (S3Storage.mkKey s3_dir nm.1, ser nm.2)))
          (S3Storage.mkKey s3_dir q.1) = true := by
      intro q hq
      rw [S3Storage.keyExists_append]
      rcases hex : S3Storage.keyExists store (S3Storage.mkKey s3_dir q.1)
        with _ | _
      · have hentry : (S3Storage.mkKey s3_dir q.1, ser q.2) ∈
            (file_names.zip im_stack).filterMap
              (fun nm => if S3Storage.keyExists store
                    (S3Storage.mkKey s3_dir nm.1)
                  then none
                  else some (S3Storage.mkKey s3_dir nm.1, ser nm.2)) := by
          rw [List.mem_filterMap]
          exact ⟨q, hq, by rw [hex]; simp⟩
        have : S3Storage.keyExists ((file_names.zip im_stack).filterMap
            (fun nm => if S3Storage.keyExists store
                  (S3Storage.mkKey s3_dir nm.1)
                then none
                else some (S3Storage.mkKey s3_dir nm.1, ser nm.2)))
            (S3Storage.mkKey s3_dir q.1) = true := by
          unfold S3Storage.keyExists
          rw [List.any_eq_true]
          exact ⟨_, hentry, S3Storage.isPrefixOf_self _⟩
        rw [this]
        simp
      · simp [hex]
    unfold S3Storage.upload_frames
    rw [if_neg (by omega)]
    congr 1
    have hnil : (file_names.zip im_stack).filterMap
        (fun nm => if S3Storage.keyExists
              (store ++ (file_names.zip im_stack).filterMap
                (fun q => if S3Storage.keyExists store
                      (S3Storage.mkKey s3_dir q.1)
                    then none
                    else some (S3Storage.mkKey s3_dir q.1, ser q.2)))
              (S3Storage.mkKey s3_dir nm.1)
            then none
            else some (S3Storage.mkKey s3_dir nm.1, ser nm.2)) = [] := by
      rw [List.filterMap_eq_nil_iff]
      intro a ha
      rw [hall a ha]
      rfl
    rw [hnil, List.append_nil]

/-- Instance of `upload_frames_spec`: a two-frame upload into an empty
store; both objects land, and the identical re-upload is a no-op. -/
theorem upload_frames_spec_witness :
    ∃ store2,
      S3Storage.upload_frames (fun n : Nat => n + 100) [] ['d']
        [['a'], ['b']] [1, 2] = some store2 ∧
      (∀ k b, S3Storage.getObj ([] : List (List Char × Nat)) k = some b →
        S3Storage.getObj store2 k = some b) ∧
      (∀ nm im, (nm, im) ∈ [['a'], ['b']].zip [1, 2] →
        S3Storage.keyExists ([] : List (List Char × Nat))
          (S3Storage.mkKey ['d'] nm) = false →
        S3Storage.getObj store2 (S3Storage.mkKey ['d'] nm) = some (im + 100)) ∧
      S3Storage.upload_frames (fun n : Nat => n + 100) store2 ['d']
        [['a'], ['b']] [1, 2] = some store2 :=
  upload_frames_spec (fun n : Nat => n + 100) [] ['d'] [['a'], ['b']] [1, 2]
    (by decide) (by decide)

/-! ### imaging_db/database/db_operations.py — _get_frames_subset -/

namespace DbOperations

/-- One row of the frames dataframe built by `pd.read_sql` from the Frames
query (after the jsonb and internal id columns are dropped). -/
structure DbFrame where
  channel_idx : Int
  slice_idx : Int
  time_idx : Int
  pos_idx : Int
  channel_name : Option String
  file_name : String
deriving DecidableEq

/-- Python lets the `channels` argument mix ints and strings; an element is
one or the other. -/
def isStrElem : Int ⊕ String → Bool
  | Sum.inr _ => true
  | Sum.inl _ => false

def isIntElem : Int ⊕ String → Bool
  | Sum.inl _ => true
  | Sum.inr _ => false

def chanNames (cs : List (Int ⊕ String)) : List String :=
  cs.filterMap (fun c => match c with | Sum.inr s => some s | Sum.inl _ => none)

def chanIdxs (cs : List (Int ⊕ String)) : List Int :=
  cs.filterMap (fun c => match c with | Sum.inl i => some i | Sum.inr _ => none)

/-- The channel branch of `_get_frames_subset`: all-string lists filter by
`channel_name`, all-int lists by `channel_idx`, anything mixed raises
TypeError.  A null channel name (None/NaN in pandas) matches no name. -/
def channelFilterStep (rows : List DbFrame)
    (channels : Option (List (Int ⊕ String))) : Except String (List DbFrame) :=
  match channels with
  | none => Except.ok rows
  | some cs =>
    if cs.all isStrElem then
      Except.ok (rows.filter (fun r =>
        match r.channel_name with
        | some n => (chanNames cs).contains n
        | none => false))
    else if cs.all isIntElem then
      Except.ok (rows.filter (fun r => (chanIdxs cs).contains r.channel_idx))
    else Except.error "Channels must be all str or all int"

/-- One optional `isin` filter step
(`if xs is not None: subset = subset[subset[col].isin(xs)]`). -/
def dimFilter (o : Option (List Int)) (sel : DbFrame → Int)
    (l : List DbFrame) : List DbFrame :=
  match o with
  | none => l
  | some vs => l.filter (fun r => vs.contains (sel r))

/-- `DatabaseOperations._get_frames_subset`: filter by channel, then slice,
then time, then position, and assert the result is non-empty. -/
def _get_frames_subset (rows : List DbFrame)
    (positions times : Option (List Int))
    (channels : Option (List (Int ⊕ String)))
    (slices : Option (List Int)) : Except String (List DbFrame) :=
  match channelFilterStep rows channels with
  | Except.error e => Except.error e
  | Except.ok r1 =>
    let r4 := dimFilter positions DbFrame.pos_idx
      (dimFilter times DbFrame.time_idx (dimFilter slices DbFrame.slice_idx r1))
    if 0 < r4.length then Except.ok r4
    else Except.error "No frames matched the query"

/-- The membership test of one optional dimension filter. -/
def dimPred (o : Option (List Int)) (sel : DbFrame → Int) (r : DbFrame) : Bool :=
  match o with
  | none => true
  | some vs => vs.contains (sel r)

/-- The membership test of the channel filter (for a well-typed filter). -/
def chanPred (channels : Option (List (Int ⊕ String))) (r : DbFrame) : Bool :=
  match channels with
  | none => true
  | some cs =>
    if cs.all isStrElem then
      match r.channel_name with
      | some n => (chanNames cs).contains n
      | none => false
    else (chanIdxs cs).contains r.channel_idx

/-- The conjunction of the four membership tests: a row survives iff every
requested dimension filter contains its index value. -/
def frame_matches (positions times : Option (List Int))
    (channels : Option (List (Int ⊕ String))) (slices : Option (List Int))
    (r : DbFrame) : Bool :=
  dimPred positions DbFrame.pos_idx r &&
    (dimPred times DbFrame.time_idx r &&
      (dimPred slices DbFrame.slice_idx r && chanPred channels r))

/-- A channels argument the code accepts: absent, all names, or all ints. -/
def WellTypedChannels : Option (List (Int ⊕ String)) → Prop
  | none => True
  | some cs => cs.all isStrElem = true ∨ cs.all isIntElem = true

instance (c : Option (List (Int ⊕ String))) : Decidable (WellTypedChannels c) :=
  match c with
  | none => isTrue trivial
  | some cs =>
    inferInstanceAs (Decidable (cs.all isStrElem = true ∨ cs.all isIntElem = true))

theorem dimFilter_eq_filter (o : Option (List Int)) (sel : DbFrame → Int)
    (l : List DbFrame) : dimFilter o sel l = l.filter (dimPred o sel) := by
  cases o with
  | none =>
    show l = l.filter (fun _ => true)
    rw [List.filter_true]
  | some vs => rfl

theorem channelFilterStep_ok (rows : List DbFrame)
    (channels : Option (List (Int ⊕ String))) (hw : WellTypedChannels channels) :
    channelFilterStep rows channels =
      Except.ok (rows.filter (chanPred channels)) := by
  cases channels with
  | none =>
    show Except.ok rows = Except.ok (rows.filter (fun _ => true))
    rw [List.filter_true]
  | some cs =>
    rcases h : cs.all isStrElem with _ | _
    · have hint : cs.all isIntElem = true := by
        rcases hw with hs | hi
        · rw [h] at hs; cases hs
        · exact hi
      simp only [channelFilterStep, h, hint]
      simp only [Bool.false_eq_true, if_false, if_true, Except.ok.injEq]
      apply List.filter_congr
      intro r _
      simp [chanPred, h]
    · simp only [channelFilterStep, h, if_true, Except.ok.injEq]
      apply List.filter_congr
      intro r _
      simp [chanPred, h]

end DbOperations

/-- Claim C6: for a well-typed channels argument, `_get_frames_subset`
applies the four dimension filters as one ANDed membership test and raises
"No frames matched the query" exactly when that test selects zero rows — it
never returns an empty row set. -/
theorem get_frames_subset_spec (rows : List DbOperations.DbFrame)
    (positions times : Option (List Int))
    (channels : Option (List (Int ⊕ String))) (slices : Option (List Int))
    (hw : DbOperations.WellTypedChannels channels) :
    DbOperations._get_frames_subset rows positions times channels slices =
      (if (rows.filter
            (DbOperations.frame_matches positions times channels slices)).length
          = 0
       then Except.error "No frames matched the query"
       else Except.ok (rows.filter
            (DbOperations.frame_matches positions times channels slices))) := by
  unfold DbOperations._get_frames_subset
  rw [DbOperations.channelFilterStep_ok rows channels hw]
  simp only [DbOperations.dimFilter_eq_filter, List.filter_filter]
  have hm : (fun r =>
      DbOperations.dimPred positions DbOperations.DbFrame.pos_idx r &&
        (DbOperations.dimPred times DbOperations.DbFrame.time_idx r &&
          (DbOperations.dimPred slices DbOperations.DbFrame.slice_idx r &&
            DbOperations.chanPred channels r))) =
      DbOperations.frame_matches positions times channels slices := rfl
  rw [hm]
  rcases hz : (rows.filter
      (DbOperations.frame_matches positions times channels slices)).length with _ | n
  · simp [hz]
  · simp [hz]

/-- Witness for C6: two frames with channel indices 1 and 2; the int filter
[1] selects exactly the first, and the filter [5] raises. -/
theorem get_frames_subset_spec_witness :
    DbOperations._get_frames_subset
        [⟨1, 0, 0, 0, some "DAPI", "f1"⟩, ⟨2, 0, 0, 0, some "GFP", "f2"⟩]
        none none (some [Sum.inl 1]) none =
      Except.ok [⟨1, 0, 0, 0, some "DAPI", "f1"⟩] ∧
    DbOperations._get_frames_subset
        [⟨1, 0, 0, 0, some "DAPI", "f1"⟩, ⟨2, 0, 0, 0, some "GFP", "f2"⟩]
        none none (some [Sum.inl 5]) none =
      Except.error "No frames matched the query" := by
  constructor
  · rw [get_frames_subset_spec _ _ _ _ _ (by decide)]
    rfl
  · rw [get_frames_subset_spec _ _ _ _ _ (by decide)]
    rfl

/-! ### imaging_db/images/file_splitter.py and imaging_db/utils/meta_utils.py -/

namespace FileSplitter

/-- One row of the splitter's `frames_meta` dataframe. -/
structure MetaRow where
  channel_idx : Nat
  slice_idx : Nat
  time_idx : Nat
  pos_idx : Nat
  channel_name : Option String
  file_name : List Char
deriving DecidableEq

/-- Python `str.zfill`: left-pad with zeros up to `width` (no-op when the
string is already at least that long; digit strings only, so no sign
handling is involved). -/
def zfill (width : Nat) (s : List Char) : List Char :=
  if s.length < width then List.replicate (width - s.length) '0' ++ s else s

/-- Python `str(n)` for a natural number. -/
def natChars (n : Nat) : List Char := (Nat.repr n).toList

/-- `FileSplitter._get_imname`: `"im_c" + str(channel).zfill(k) + "_z" +
str(slice).zfill(k) + "_t" + str(time).zfill(k) + "_p" + str(pos).zfill(k) +
file_format`, with `k = int2str_len` (3 by default). -/
def _get_imname (r : MetaRow) (int2strLen : Nat) (ext : List Char) : List Char :=
  'i' :: 'm' :: '_' :: 'c' :: zfill int2strLen (natChars r.channel_idx) ++
  '_' :: 'z' :: zfill int2strLen (natChars r.slice_idx) ++
  '_' :: 't' :: zfill int2strLen (natChars r.time_idx) ++
  '_' :: 'p' :: zfill int2strLen (natChars r.pos_idx) ++ ext

/-- The `global_meta` dict built by `FileSplitter.set_global_meta`; every
value that can be Python `None` is an `Option`. -/
structure SplitterGlobalMeta where
  s3_dir : Option String
  nbr_frames : Option Nat
  im_width : Option Nat
  im_height : Option Nat
  nbr_slices : Option Nat
  nbr_channels : Option Nat
  im_colors : Option Nat
  nbr_timepoints : Option Nat
  nbr_positions : Option Nat
  bit_depth : Option String
deriving DecidableEq

/-- `validate_global_meta` (identical in `file_splitter.py` and
`meta_utils.py`): loop over the ten required keys, collect per-key validity
(key present with a non-None value) into a boolean vector, and require
`np.all` of it. -/
def validate_global_meta (m : SplitterGlobalMeta) : Bool :=
  [m.s3_dir.isSome, m.nbr_frames.isSome, m.im_width.isSome, m.im_height.isSome,
   m.nbr_slices.isSome, m.nbr_channels.isSome, m.im_colors.isSome,
   m.nbr_timepoints.isSome, m.nbr_positions.isSome, m.bit_depth.isSome].all
    (fun b => b)

/-- The dict literal of `set_global_meta`: `im_height`/`im_width` from
`self.frame_shape`, `im_colors`/`bit_depth` as set by `set_frame_info` from
the first decoded frame (None if never set), and the four `nbr_*` counts as
`len(np.unique(column))` over the realized frame rows. -/
def buildGlobalMeta (s3dir : String) (nbrFrames : Nat) (hw : Nat × Nat)
    (imColors : Option Nat) (bitDepth : Option String) (rows : List MetaRow) :
    SplitterGlobalMeta where
  s3_dir := some s3dir
  nbr_frames := some nbrFrames
  im_height := some hw.1
  im_width := some hw.2
  im_colors := imColors
  bit_depth := bitDepth
  nbr_slices := some (npUnique (rows.map MetaRow.slice_idx)).length
  nbr_channels := some (npUnique (rows.map MetaRow.channel_idx)).length
  nbr_timepoints := some (npUnique (rows.map MetaRow.time_idx)).length
  nbr_positions := some (npUnique (rows.map MetaRow.pos_idx)).length

/-- `FileSplitter.set_global_meta`: build the dict and validate it; `none`
models the exception paths (frame_shape still None, or validation
failing). -/
def set_global_meta (s3dir : String) (nbrFrames : Nat)
    (frameShape : Option (Nat × Nat)) (imColors : Option Nat)
    (bitDepth : Option String) (rows : List MetaRow) :
    Option SplitterGlobalMeta :=
  match frameShape with
  | none => none
  | some hw =>
    let m := buildGlobalMeta s3dir nbrFrames hw imColors bitDepth rows
    if validate_global_meta m then some m else none

theorem zfill_eq_leftpad (w : Nat) (s : List Char) :
    zfill w s = List.leftpad w '0' s := by
  unfold zfill List.leftpad
  by_cases h : s.length < w
  · simp [h]
  · rw [if_neg h, Nat.sub_eq_zero_of_le (le_of_not_lt h)]
    simp

end FileSplitter

/-- Claim C7: after `set_global_meta` completes with the frame info set by
`set_frame_info` from the first decoded frame, each `nbr_*` field equals the
number of distinct values of the corresponding index among the realized
rows, the image fields are exactly the first-frame values, and
`validate_global_meta` holds iff all ten required fields are present and
non-null (so a None `im_colors` or `bit_depth` makes `set_global_meta`
fail). -/
theorem set_global_meta_spec :
    (∀ (s3dir : String) (nf h w ic : Nat) (bd : String)
        (rows : List FileSplitter.MetaRow),
      FileSplitter.set_global_meta s3dir nf (some (h, w)) (some ic) (some bd)
          rows =
        some
          { s3_dir := some s3dir
            nbr_frames := some nf
            im_width := some w
            im_height := some h
            nbr_slices :=
              some (rows.map FileSplitter.MetaRow.slice_idx).toFinset.card
            nbr_channels :=
              some (rows.map FileSplitter.MetaRow.channel_idx).toFinset.card
            im_colors := some ic
            nbr_timepoints :=
              some (rows.map FileSplitter.MetaRow.time_idx).toFinset.card
            nbr_positions :=
              some (rows.map FileSplitter.MetaRow.pos_idx).toFinset.card
            bit_depth := some bd }) ∧
    (∀ m : FileSplitter.SplitterGlobalMeta,
      FileSplitter.validate_global_meta m = true ↔
        m.s3_dir.isSome = true ∧ m.nbr_frames.isSome = true ∧
        m.im_width.isSome = true ∧ m.im_height.isSome = true ∧
        m.nbr_slices.isSome = true ∧ m.nbr_channels.isSome = true ∧
        m.im_colors.isSome = true ∧ m.nbr_timepoints.isSome = true ∧
        m.nbr_positions.isSome = true ∧ m.bit_depth.isSome = true) ∧
    (∀ (s3dir : String) (nf h w : Nat) (bd : Option String)
        (rows : List FileSplitter.MetaRow),
      FileSplitter.set_global_meta s3dir nf (some (h, w)) none bd rows =
        none) ∧
    (∀ (s3dir : String) (nf h w ic : Nat)
        (rows : List FileSplitter.MetaRow),
      FileSplitter.set_global_meta s3dir nf (some (h, w)) (some ic) none rows =
        none) := by
  refine ⟨fun s3dir nf h w ic bd rows => ?_, fun m => ?_,
    fun s3dir nf h w bd rows => ?_, fun s3dir nf h w ic rows => ?_⟩
  · simp [FileSplitter.set_global_meta, FileSplitter.buildGlobalMeta,
      FileSplitter.validate_global_meta, npUnique_length]
  · simp [FileSplitter.validate_global_meta, and_assoc]
  · simp [FileSplitter.set_global_meta, FileSplitter.buildGlobalMeta,
      FileSplitter.validate_global_meta]
  · simp [FileSplitter.set_global_meta, FileSplitter.buildGlobalMeta,
      FileSplitter.validate_global_meta]

/-- Witness for C7: two frames sharing a channel index give nbr_channels 1
and nbr_slices 2; dropping bit_depth fails validation. -/
theorem set_global_meta_spec_witness :
    FileSplitter.set_global_meta "raw_frames/ML-1" 2 (some (5, 4)) (some 1)
        (some "uint8")
        [⟨0, 3, 0, 0, none, []⟩, ⟨0, 9, 0, 0, none, []⟩] =
      some ⟨some "raw_frames/ML-1", some 2, some 4, some 5, some 2, some 1,
        some 1, some 1, some 1, some "uint8"⟩ ∧
    FileSplitter.set_global_meta "raw_frames/ML-1" 2 (some (5, 4)) (some 1)
        none [⟨0, 3, 0, 0, none, []⟩, ⟨0, 9, 0, 0, none, []⟩] = none := by
  constructor
  · rw [set_global_meta_spec.1]
    decide
  · exact set_global_meta_spec.2.2.2 "raw_frames/ML-1" 2 5 4 1 _

/-- Claim C8: the canonical frame file name is
"im_c" ++ channel zero-padded to 3 ++ "_z" ++ slice zero-padded to 3 ++
"_t" ++ time zero-padded to 3 ++ "_p" ++ position zero-padded to 3 ++
extension, and it depends on exactly the four indices and the extension:
rows agreeing on those four fields get equal names. -/
theorem get_imname_spec :
    (∀ (r : FileSplitter.MetaRow) (ext : List Char),
      FileSplitter._get_imname r 3 ext =
        'i' :: 'm' :: '_' :: 'c' ::
          List.leftpad 3 '0' (FileSplitter.natChars r.channel_idx) ++
        '_' :: 'z' :: List.leftpad 3 '0' (FileSplitter.natChars r.slice_idx) ++
        '_' :: 't' :: List.leftpad 3 '0' (FileSplitter.natChars r.time_idx) ++
        '_' :: 'p' :: List.leftpad 3 '0' (FileSplitter.natChars r.pos_idx) ++
        ext) ∧
    (∀ (r r2 : FileSplitter.MetaRow) (ext : List Char),
      r.channel_idx = r2.channel_idx → r.slice_idx = r2.slice_idx →
      r.time_idx = r2.time_idx → r.pos_idx = r2.pos_idx →
      FileSplitter._get_imname r 3 ext = FileSplitter._get_imname r2 3 ext) := by
  constructor
  · intro r ext
    simp [FileSplitter._get_imname, FileSplitter.zfill_eq_leftpad]
  · intro r r2 ext hc hz ht hp
    simp [FileSplitter._get_imname, hc, hz, ht, hp]

/-- Witness for C8: the name for indices (1, 2, 3, 40) with extension
".png", and name equality for two rows differing only in channel_name and
file_name. -/
theorem get_imname_spec_witness :
    FileSplitter._get_imname ⟨1, 2, 3, 40, none, []⟩ 3
        ['.', 'p', 'n', 'g'] =
      ('i' :: 'm' :: '_' :: 'c' ::
          List.leftpad 3 '0' (FileSplitter.natChars 1) ++
        '_' :: 'z' :: List.leftpad 3 '0' (FileSplitter.natChars 2) ++
        '_' :: 't' :: List.leftpad 3 '0' (FileSplitter.natChars 3) ++
        '_' :: 'p' :: List.leftpad 3 '0' (FileSplitter.natChars 40) ++
        ['.', 'p', 'n', 'g']) ∧
    FileSplitter._get_imname ⟨1, 2, 3, 40, some "DAPI", ['x']⟩ 3
        ['.', 'p', 'n', 'g'] =
      FileSplitter._get_imname ⟨1, 2, 3, 40, none, []⟩ 3 ['.', 'p', 'n', 'g'] :=
  ⟨get_imname_spec.1 ⟨1, 2, 3, 40, none, []⟩ ['.', 'p', 'n', 'g'],
   get_imname_spec.2 ⟨1, 2, 3, 40, some "DAPI", ['x']⟩ ⟨1, 2, 3, 40, none, []⟩
     ['.', 'p', 'n', 'g'] rfl rfl rfl rfl⟩

/-! ### imaging_db/images/tif_id_splitter.py — TifIDSplitter frame order -/

namespace TifIDSplitter

/-- The innermost loop of `itertools.product(range(T), range(P), range(Z),
range(C))`: the channel sweep at fixed (t, p, z). -/
def prodC (t p z C : Nat) : List (Nat × Nat × Nat × Nat) :=
  (List.range C).map (fun c => (t, p, z, c))

/-- Slice sweep at fixed (t, p). -/
def prodZC (t p Z C : Nat) : List (Nat × Nat × Nat × Nat) :=
  (List.range Z).flatMap (fun z => prodC t p z C)

/-- Position sweep at fixed t. -/
def prodPZC (t P Z C : Nat) : List (Nat × Nat × Nat × Nat) :=
  (List.range P).flatMap (fun p => prodZC t p Z C)

/-- `itertools.product(range(nbr_timepoints), range(nbr_positions),
range(nbr_slices), range(nbr_channels))` as a list of (t, p, z, c). -/
def product4 (T P Z C : Nat) : List (Nat × Nat × Nat × Nat) :=
  (List.range T).flatMap (fun t => prodPZC t P Z C)

/-- The meta_row built for one frame of the tag-less splitter: indices from
the product tuple, `channel_name = None`, file name from `_get_imname`. -/
def mkTifRow (t p z c : Nat) (ext : List Char) : FileSplitter.MetaRow :=
  let r0 : FileSplitter.MetaRow :=
    { channel_idx := c, slice_idx := z, time_idx := t, pos_idx := p,
      channel_name := none, file_name := [] }
  { r0 with file_name := FileSplitter._get_imname r0 3 ext }

/-- The `frames_meta` rows produced by
`TifIDSplitter.get_frames_and_metadata` for counts (T, P, Z, C) parsed from
the descriptive tag: frame i gets the i-th tuple of the product. -/
def tifID_frames_meta (T P Z C : Nat) (ext : List Char) :
    List FileSplitter.MetaRow :=
  (product4 T P Z C).map (fun q => mkTifRow q.1 q.2.1 q.2.2.1 q.2.2.2 ext)

theorem length_flatMap_const {α β : Type} {l : List α} {f : α → List β}
    {L : Nat} (hf : ∀ x ∈ l, (f x).length = L) :
    (l.flatMap f).length = l.length * L := by
  induction l with
  | nil => simp
  | cons x tl ih =>
    rw [List.flatMap_cons, List.length_append, hf x (List.mem_cons_self x tl),
      ih (fun y hy => hf y (List.mem_cons_of_mem x hy)), List.length_cons]
    ring

theorem getElem?_flatMap_const {α β : Type} {l : List α} {f : α → List β}
    {L : Nat} (hf : ∀ x ∈ l, (f x).length = L) (d : α) :
    ∀ {a : Nat}, a < l.length → ∀ {b : Nat}, b < L →
      (l.flatMap f)[a * L + b]? = (f (l.getD a d))[b]? := by
  induction l with
  | nil => intro a ha; simp at ha
  | cons x tl ih =>
    intro a ha b hb
    cases a with
    | zero =>
      rw [List.flatMap_cons, Nat.zero_mul, Nat.zero_add, List.getD_cons_zero]
      exact List.getElem?_append_left
        (by rw [hf x (List.mem_cons_self x tl)]; exact hb)
    | succ a =>
      have hx : (f x).length = L := hf x (List.mem_cons_self x tl)
      have h1 : (a + 1) * L = a * L + L := by ring
      rw [List.flatMap_cons]
      rw [List.getElem?_append_right (by rw [hx]; omega)]
      have harith : (a + 1) * L + b - (f x).length = a * L + b := by
        rw [hx]; omega
      rw [harith, List.getD_cons_succ]
      exact ih (fun y hy => hf y (List.mem_cons_of_mem x hy))
        (Nat.lt_of_succ_lt_succ ha) hb

theorem prodC_length (t p z C : Nat) : (prodC t p z C).length = C := by
  simp [prodC]

theorem prodZC_length (t p Z C : Nat) : (prodZC t p Z C).length = Z * C := by
  have := length_flatMap_const (l := List.range Z) (f := fun z => prodC t p z C)
    (L := C) (fun z _ => prodC_length t p z C)
  simpa [prodZC] using this

theorem prodPZC_length (t P Z C : Nat) :
    (prodPZC t P Z C).length = P * (Z * C) := by
  have := length_flatMap_const (l := List.range P)
    (f := fun p => prodZC t p Z C) (L := Z * C)
    (fun p _ => prodZC_length t p Z C)
  simpa [prodPZC] using this

theorem product4_length (T P Z C : Nat) :
    (product4 T P Z C).length = T * (P * (Z * C)) := by
  have := length_flatMap_const (l := List.range T)
    (f := fun t => prodPZC t P Z C) (L := P * (Z * C))
    (fun t _ => prodPZC_length t P Z C)
  simpa [product4] using this

theorem getD_range {n i : Nat} (h : i < n) : (List.range n).getD i 0 = i := by
  simp [List.getD, List.getElem?_range h]

theorem mul_add_bound {a A b B : Nat} (ha : a < A) (hb : b < B) :
    a * B + b < A * B := by
  calc a * B + b < a * B + B := by omega
    _ = (a + 1) * B := by ring
    _ ≤ A * B := Nat.mul_le_mul_right B ha

theorem prodC_get {t p z C c : Nat} (hc : c < C) :
    (prodC t p z C)[c]? = some (t, p, z, c) := by
  simp [prodC, List.getElem?_range hc]

theorem prodZC_get {t p Z C z c : Nat} (hz : z < Z) (hc : c < C) :
    (prodZC t p Z C)[z * C + c]? = some (t, p, z, c) := by
  rw [prodZC, getElem?_flatMap_const (fun x _ => prodC_length t p x C) 0
    (by simpa using hz) hc, getD_range hz]
  exact prodC_get hc

theorem prodPZC_get {t P Z C p z c : Nat} (hp : p < P) (hz : z < Z)
    (hc : c < C) :
    (prodPZC t P Z C)[p * (Z * C) + (z * C + c)]? = some (t, p, z, c) := by
  rw [prodPZC, getElem?_flatMap_const (fun x _ => prodZC_length t x Z C) 0
    (by simpa using hp) (mul_add_bound hz hc), getD_range hp]
  exact prodZC_get hz hc

theorem product4_get {T P Z C t p z c : Nat} (ht : t < T) (hp : p < P)
    (hz : z < Z) (hc : c < C) :
    (product4 T P Z C)[t * (P * (Z * C)) + (p * (Z * C) + (z * C + c))]? =
      some (t, p, z, c) := by
  have hb : p * (Z * C) + (z * C + c) < P * (Z * C) := by
    have h1 : z * C + c < Z * C := mul_add_bound hz hc
    calc p * (Z * C) + (z * C + c) < p * (Z * C) + Z * C := by omega
      _ = (p + 1) * (Z * C) := by ring
      _ ≤ P * (Z * C) := Nat.mul_le_mul_right (Z * C) hp
  rw [product4, getElem?_flatMap_const (fun x _ => prodPZC_length x P Z C) 0
    (by simpa using ht) hb, getD_range ht]
  exact prodPZC_get hp hz hc

end TifIDSplitter

/-- Claim C9 as stated is false on its channel-name clause: the tag-less
splitter sets `channel_name = None`, not the stringified channel index.
Concretely, for a 1x1x1x1 stack, frame 0 has a null channel name. -/
theorem tifID_channel_name_counterexample :
    ¬ (∀ r ∈ TifIDSplitter.tifID_frames_meta 1 1 1 1 ['.', 'p', 'n', 'g'],
        r.channel_name = some (Nat.repr r.channel_idx)) := by
  intro h
  have hmem : TifIDSplitter.mkTifRow 0 0 0 0 ['.', 'p', 'n', 'g'] ∈
      TifIDSplitter.tifID_frames_meta 1 1 1 1 ['.', 'p', 'n', 'g'] := by
    show TifIDSplitter.mkTifRow 0 0 0 0 ['.', 'p', 'n', 'g'] ∈
      [TifIDSplitter.mkTifRow 0 0 0 0 ['.', 'p', 'n', 'g']]
    exact List.mem_singleton_self _
  have hr := h _ hmem
  simp [TifIDSplitter.mkTifRow] at hr

/-- Claim C9 amended: in the tag-less single-file stack splitter with counts
(T, P, Z, C) from the descriptive tag, the list of frame rows has length
T*P*Z*C and frame number t*(P*Z*C) + p*(Z*C) + z*C + c (the rank of
(t, p, z, c) in the cartesian product time x position x slice x channel,
outermost to innermost) carries exactly those four indices, the canonical
file name derived from them, and a null channel name (the code stores None;
the stringified-index default belongs to parse_idx_from_name, which this
splitter does not use for frame rows). -/
theorem tifID_frame_assignment (T P Z C : Nat) (ext : List Char)
    (t p z c : Nat) (ht : t < T) (hp : p < P) (hz : z < Z) (hc : c < C) :
    (TifIDSplitter.tifID_frames_meta T P Z C ext).length =
      T * (P * (Z * C)) ∧
    (TifIDSplitter.tifID_frames_meta T P Z C ext)[t * (P * (Z * C)) +
        (p * (Z * C) + (z * C + c))]? =
      some (TifIDSplitter.mkTifRow t p z c ext) ∧
    (TifIDSplitter.mkTifRow t p z c ext).channel_idx = c ∧
    (TifIDSplitter.mkTifRow t p z c ext).slice_idx = z ∧
    (TifIDSplitter.mkTifRow t p z c ext).time_idx = t ∧
    (TifIDSplitter.mkTifRow t p z c ext).pos_idx = p ∧
    (TifIDSplitter.mkTifRow t p z c ext).channel_name = none ∧
    (TifIDSplitter.mkTifRow t p z c ext).file_name =
      FileSplitter._get_imname
        { channel_idx := c, slice_idx := z, time_idx := t, pos_idx := p,
          channel_name := none, file_name := [] } 3 ext := by
  refine ⟨?_, ?_, rfl, rfl, rfl, rfl, rfl, rfl⟩
  · rw [TifIDSplitter.tifID_frames_meta, List.length_map,
      TifIDSplitter.product4_length]
  · rw [TifIDSplitter.tifID_frames_meta, List.getElem?_map,
      TifIDSplitter.product4_get ht hp hz hc]
    rfl

/-- Witness for the amended C9: a 2x1x1x2 stack; frame 3 is (t, p, z, c) =
(1, 0, 0, 1) with a null channel name. -/
theorem tifID_frame_assignment_witness :
    (TifIDSplitter.tifID_frames_meta 2 1 1 2 ['.', 'p', 'n', 'g']).length =
      2 * (1 * (1 * 2)) ∧
    (TifIDSplitter.tifID_frames_meta 2 1 1 2
        ['.', 'p', 'n', 'g'])[1 * (1 * (1 * 2)) + (0 * (1 * 2) + (0 * 2 + 1))]? =
      some (TifIDSplitter.mkTifRow 1 0 0 1 ['.', 'p', 'n', 'g']) ∧
    (TifIDSplitter.mkTifRow 1 0 0 1 ['.', 'p', 'n', 'g']).channel_idx = 1 ∧
    (TifIDSplitter.mkTifRow 1 0 0 1 ['.', 'p', 'n', 'g']).slice_idx = 0 ∧
    (TifIDSplitter.mkTifRow 1 0 0 1 ['.', 'p', 'n', 'g']).time_idx = 1 ∧
    (TifIDSplitter.mkTifRow 1 0 0 1 ['.', 'p', 'n', 'g']).pos_idx = 0 ∧
    (TifIDSplitter.mkTifRow 1 0 0 1 ['.', 'p', 'n', 'g']).channel_name = none ∧
    (TifIDSplitter.mkTifRow 1 0 0 1 ['.', 'p', 'n', 'g']).file_name =
      FileSplitter._get_imname
        { channel_idx := 1, slice_idx := 0, time_idx := 1, pos_idx := 0,
          channel_name := none, file_name := [] } 3 ['.', 'p', 'n', 'g'] :=
  tifID_frame_assignment 2 1 1 2 ['.', 'p', 'n', 'g'] 1 0 0 1 (by decide)
    (by decide) (by decide) (by decide)

/-! ### imaging_db/utils/image_utils.py — serialize_im / deserialize_im -/

namespace ImageUtils

/-- The pixel types this repository stores (bit_depth is uint8 or uint16
everywhere in the splitters). -/
inductive Dtype
  | uint8
  | uint16
deriving DecidableEq

/-- A numpy image: shape, dtype, and row-major pixel data. -/
structure NpImage where
  shape : List Nat
  dtype : Dtype
  pixels : List Nat
deriving DecidableEq

/-- `np.squeeze`: all singleton axes are dropped; the row-major data buffer
is unchanged. -/
def np_squeeze_im (im : NpImage) : NpImage :=
  { im with shape := im.shape.filter (fun d => !(d == 1)) }

def dtypeTag : Dtype → Nat
  | Dtype.uint8 => 8
  | Dtype.uint16 => 16

def tagDtype : Nat → Option Dtype
  | 8 => some Dtype.uint8
  | 16 => some Dtype.uint16
  | _ => none

/-- Model of `cv2.imencode(file_format, im)` for `.png`: PNG is a lossless
container for 8- and 16-bit grayscale and 8-bit color images, so the byte
string is modelled as a self-describing record of shape, bit depth and
pixels.  (The PNG byte layout itself is external to this repository; what
the code relies on is that decoding an encoded image returns the identical
array.) -/
def pngEncode (im : NpImage) : List Nat :=
  im.shape.length :: im.shape ++ dtypeTag im.dtype :: im.pixels

/-- Model of `cv2.imdecode(buf, cv2.IMREAD_ANYDEPTH | cv2.IMREAD_ANYCOLOR)`:
recover the stored shape, bit depth and pixels; `none` for an undecodable
buffer. -/
def pngDecode (b : List Nat) : Option NpImage :=
  match b with
  | [] => none
  | n :: rest =>
    let shape := rest.take n
    match rest.drop n with
    | [] => none
    | tag :: px =>
      match tagDtype tag with
      | none => none
      | some dt => if shape.length = n then some ⟨shape, dt, px⟩ else none

/-- `image_utils.serialize_im`: first `np.squeeze` the image, then encode
it. -/
def serialize_im (im : NpImage) : List Nat := pngEncode (np_squeeze_im im)

/-- `image_utils.deserialize_im`: decode the byte string back to an
array. -/
def deserialize_im (b : List Nat) : Option NpImage := pngDecode b

end ImageUtils

/-- Claim C10: for images in the repository's storage domain (squeezed
shape 2D grayscale, or 2D-plus-3-color with uint8), deserializing a
serialized image is lossless and returns exactly the squeezed original:
`deserialize_im(serialize_im(im)) = np.squeeze(im)`, where the squeeze
drops exactly the singleton axes and leaves the pixel data untouched. -/
theorem serialize_roundtrip (im : ImageUtils.NpImage)
    (hshape : (im.shape.filter (fun d => !(d == 1))).length = 2 ∨
      ((im.shape.filter (fun d => !(d == 1))).length = 3 ∧
        im.dtype = ImageUtils.Dtype.uint8)) :
    ImageUtils.deserialize_im (ImageUtils.serialize_im im) =
      some (ImageUtils.np_squeeze_im im) ∧
    (ImageUtils.np_squeeze_im im).pixels = im.pixels ∧
    (ImageUtils.np_squeeze_im im).shape =
      im.shape.filter (fun d => !(d == 1)) := by
  refine ⟨?_, rfl, rfl⟩
  show ImageUtils.pngDecode (ImageUtils.pngEncode (ImageUtils.np_squeeze_im im))
    = some (ImageUtils.np_squeeze_im im)
  obtain ⟨sh, dt, px⟩ := ImageUtils.np_squeeze_im im
  have htake := List.take_left sh (ImageUtils.dtypeTag dt :: px)
  have hdrop := List.drop_left sh (ImageUtils.dtypeTag dt :: px)
  unfold ImageUtils.pngEncode ImageUtils.pngDecode
  simp only [htake, hdrop]
  cases dt <;> simp [ImageUtils.dtypeTag, ImageUtils.tagDtype]

/-- Witness for C10: a 2x2x1 uint16 image round-trips to its 2x2 squeeze
with identical pixels. -/
theorem serialize_roundtrip_witness :
    ImageUtils.deserialize_im (ImageUtils.serialize_im
        ⟨[2, 2, 1], ImageUtils.Dtype.uint16, [5, 6, 7, 8]⟩) =
      some (ImageUtils.np_squeeze_im
        ⟨[2, 2, 1], ImageUtils.Dtype.uint16, [5, 6, 7, 8]⟩) ∧
    (ImageUtils.np_squeeze_im
        ⟨[2, 2, 1], ImageUtils.Dtype.uint16, [5, 6, 7, 8]⟩).pixels =
      [5, 6, 7, 8] ∧
    (ImageUtils.np_squeeze_im
        ⟨[2, 2, 1], ImageUtils.Dtype.uint16, [5, 6, 7, 8]⟩).shape =
      [2, 2, 1].filter (fun d => !(d == 1)) :=
  serialize_roundtrip ⟨[2, 2, 1], ImageUtils.Dtype.uint16, [5, 6, 7, 8]⟩
    (Or.inl (by decide))

/-! ### imaging_db/filestorage/s3_uploader.py — DataUploader.upload_slices -/

namespace S3Uploader

/-- The S3 key `"/".join([self.folder_name, self.project_serial,
file_name])`. -/
def slicesKey (folder serial name : List Char) : List Char :=
  folder ++ '/' :: serial ++ '/' :: name

/-- The per-item loop of `DataUploader.upload_slices`: for each frame in
order, `assert response['KeyCount'] == 0` (an existing key raises
AssertionError, modelled by `none`, aborting the batch with the earlier
items already uploaded), then serialize and `put_object`.  Unlike
`DataStorage.upload_frames`, the existence check of each item sees the
uploads made for the items before it. -/
def upload_slices_loop {α β : Type} (ser : α → β) (folder serial : List Char) :
    List (List Char × β) → List (List Char × α) → Option (List (List Char × β))
  | store, [] => some store
  | store, (nm, im) :: rest =>
    if S3Storage.keyExists store (slicesKey folder serial nm) then none
    else upload_slices_loop ser folder serial
      (store ++ [(slicesKey folder serial nm, ser im)]) rest

/-- `DataUploader.upload_slices`: assert the file-name count matches the
stack's last dimension, then run the per-item check-and-put loop. -/
def upload_slices {α β : Type} (ser : α → β) (store : List (List Char × β))
    (folder serial : List Char) (file_names : List (List Char))
    (im_stack : List α) : Option (List (List Char × β)) :=
  if file_names.length ≠ im_stack.length then none
  else upload_slices_loop ser folder serial store (file_names.zip im_stack)

theorem upload_slices_loop_extends {α β : Type} (ser : α → β)
    (folder serial : List Char) :
    ∀ (pairs : List (List Char × α)) (store st2 : List (List Char × β)),
      upload_slices_loop ser folder serial store pairs = some st2 →
      ∃ added, st2 = store ++ added := by
  intro pairs
  induction pairs with
  | nil =>
    intro store st2 h
    simp only [upload_slices_loop, Option.some.injEq] at h
    exact ⟨[], by rw [← h, List.append_nil]⟩
  | cons qp rest ih =>
    intro store st2 h
    obtain ⟨nm, im⟩ := qp
    simp only [upload_slices_loop] at h
    by_cases hk :
        S3Storage.keyExists store (slicesKey folder serial nm) = true
    · rw [if_pos hk] at h
      cases h
    · rw [if_neg hk] at h
      obtain ⟨added, hadd⟩ := ih _ _ h
      refine ⟨(slicesKey folder serial nm, ser im) :: added, ?_⟩
      rw [hadd, List.append_assoc]
      rfl

end S3Uploader

/-- Claim C5 as stated is false for the cited legacy implementation
`DataUploader.upload_slices`: uploading the same frame object twice raises
instead of logging and skipping.  Concretely, a one-frame batch uploads
fine into an empty store, and re-running the identical batch hits the
per-item `assert response['KeyCount'] == 0` and raises AssertionError
(modelled by `none`). -/
theorem upload_slices_counterexample :
    S3Uploader.upload_slices (fun n : Nat => n + 100) [] ['f'] ['s']
        [['a']] [1] =
      some [(S3Uploader.slicesKey ['f'] ['s'] ['a'], 101)] ∧
    S3Uploader.upload_slices (fun n : Nat => n + 100)
        [(S3Uploader.slicesKey ['f'] ['s'] ['a'], 101)] ['f'] ['s']
        [['a']] [1] = none := by
  constructor
  · rfl
  · rfl

/-- Claim C5 corrected: the current bulk upload,
`s3_storage.DataStorage.upload_frames`, logs and skips items whose storage
path already exists under the dataset prefix, still uploads every remaining
item, never overwrites a stored object, and accepts an identical re-upload
as a no-op; the legacy bulk upload, `s3_uploader.DataUploader.upload_slices`,
instead asserts each path is absent — a batch whose first item's path
already exists raises AssertionError immediately, and re-running a
successful non-empty `upload_slices` batch raises rather than skipping. -/
theorem upload_frames_vs_upload_slices_spec {α β : Type} (ser : α → β)
    (store : List (List Char × β)) (s3_dir folder serial : List Char)
    (file_names : List (List Char)) (im_stack : List α)
    (hlen : file_names.length = im_stack.length) (hnd : file_names.Nodup) :
    (∃ store2,
      S3Storage.upload_frames ser store s3_dir file_names im_stack =
        some store2 ∧
      (∀ k b, S3Storage.getObj store k = some b →
        S3Storage.getObj store2 k = some b) ∧
      (∀ nm im, (nm, im) ∈ file_names.zip im_stack →
        S3Storage.keyExists store (S3Storage.mkKey s3_dir nm) = false →
        S3Storage.getObj store2 (S3Storage.mkKey s3_dir nm) = some (ser im)) ∧
      S3Storage.upload_frames ser store2 s3_dir file_names im_stack =
        some store2) ∧
    (∀ (nm : List Char) (im : α) rest_names rest_ims,
      file_names = nm :: rest_names → im_stack = im :: rest_ims →
      S3Storage.keyExists store (S3Uploader.slicesKey folder serial nm) =
        true →
      S3Uploader.upload_slices ser store folder serial file_names im_stack =
        none) ∧
    (∀ st2,
      S3Uploader.upload_slices ser store folder serial file_names im_stack =
        some st2 →
      file_names ≠ [] →
      S3Uploader.upload_slices ser st2 folder serial file_names im_stack =
        none) := by
  refine ⟨upload_frames_spec ser store s3_dir file_names im_stack hlen hnd,
    ?_, ?_⟩
  · intro nm im rest_names rest_ims hfn him hex
    subst hfn
    subst him
    unfold S3Uploader.upload_slices
    rw [if_neg (fun hcon => hcon hlen)]
    rw [List.zip_cons_cons]
    simp only [S3Uploader.upload_slices_loop]
    rw [if_pos hex]
  · intro st2 hsucc hne
    cases file_names with
    | nil => exact absurd rfl hne
    | cons nm rest =>
      cases im_stack with
      | nil => simp at hlen
      | cons im rim =>
        unfold S3Uploader.upload_slices at hsucc
        rw [if_neg (fun hcon => hcon hlen)] at hsucc
        rw [List.zip_cons_cons] at hsucc
        simp only [S3Uploader.upload_slices_loop] at hsucc
        by_cases hk : S3Storage.keyExists store
            (S3Uploader.slicesKey folder serial nm) = true
        · rw [if_pos hk] at hsucc
          cases hsucc
        · rw [if_neg hk] at hsucc
          obtain ⟨added, hadd⟩ :=
            S3Uploader.upload_slices_loop_extends ser folder serial _ _ _ hsucc
          have hmem : (S3Uploader.slicesKey folder serial nm, ser im) ∈ st2 := by
            rw [hadd]
            exact List.mem_append_left _
              (List.mem_append_right _ (List.mem_singleton_self _))
          have hex2 : S3Storage.keyExists st2
              (S3Uploader.slicesKey folder serial nm) = true := by
            unfold S3Storage.keyExists
            rw [List.any_eq_true]
            exact ⟨_, hmem, S3Storage.isPrefixOf_self _⟩
          unfold S3Uploader.upload_slices
          rw [if_neg (fun hcon => hcon hlen)]
          rw [List.zip_cons_cons]
          simp only [S3Uploader.upload_slices_loop]
          rw [if_pos hex2]

/-- Witness for the corrected C5: a concrete two-frame batch; the
upload_frames half behaves as proven before, and the upload_slices half's
abort conditions are instantiated at the same batch. -/
theorem upload_frames_vs_upload_slices_spec_witness :
    (∃ store2,
      S3Storage.upload_frames (fun n : Nat => n + 100) [] ['d']
        [['a'], ['b']] [1, 2] = some store2 ∧
      (∀ k b, S3Storage.getObj ([] : List (List Char × Nat)) k = some b →
        S3Storage.getObj store2 k = some b) ∧
      (∀ nm im, (nm, im) ∈ [['a'], ['b']].zip [1, 2] →
        S3Storage.keyExists ([] : List (List Char × Nat))
          (S3Storage.mkKey ['d'] nm) = false →
        S3Storage.getObj store2 (S3Storage.mkKey ['d'] nm) = some (im + 100)) ∧
      S3Storage.upload_frames (fun n : Nat => n + 100) store2 ['d']
        [['a'], ['b']] [1, 2] = some store2) ∧
    (∀ (nm : List Char) (im : Nat) rest_names rest_ims,
      [['a'], ['b']] = nm :: rest_names → [1, 2] = im :: rest_ims →
      S3Storage.keyExists ([] : List (List Char × Nat))
        (S3Uploader.slicesKey ['f'] ['s'] nm) = true →
      S3Uploader.upload_slices (fun n : Nat => n + 100) [] ['f'] ['s']
        [['a'], ['b']] [1, 2] = none) ∧
    (∀ st2,
      S3Uploader.upload_slices (fun n : Nat => n + 100) [] ['f'] ['s']
        [['a'], ['b']] [1, 2] = some st2 →
      [['a'], ['b']] ≠ ([] : List (List Char)) →
      S3Uploader.upload_slices (fun n : Nat => n + 100) st2 ['f'] ['s']
        [['a'], ['b']] [1, 2] = none) :=
  upload_frames_vs_upload_slices_spec (fun n : Nat => n + 100) [] ['d']
    ['f'] ['s'] [['a'], ['b']] [1, 2] (by decide) (by decide)
